import Mathlib

/-!
The `xr12` package of xair: a MIDI and SysEx command bridge.

A shallow embedding of the Go package `xr12` (`midi.go`, `sysex.go`, `xair.go`)
followed by theorems about it.

Conventions of the embedding.

* Go `int64` (and `int`, 64 bits wide) values are mathematical integers in
  `[-2^63, 2^63)`.  The operators that can leave that range, or that act on the
  two's complement bit pattern (`<<`, `&`, `|`, `-`), go through `toBits` /
  `ofBits`, which convert between a signed value and its 64-bit pattern.
* A Go channel is `Option (Chan α)`: `none` is the nil channel, `some c` a
  channel with capacity `c.cap` holding the messages `c.buf` (head = oldest).
  The commands are modelled from the sending side, one call at a time.
* `log.Fatal` / `log.Fatalf` end the process.  A command therefore yields an
  `Outcome`: `done x` with the bridge after the call, or `fatal e x` with the
  error kind and the bridge as it was when the process stopped.
* A `for ... range m` loop over a Go map visits the entries in an order chosen by
  the runtime; the commands take that order as an argument.
* `portmidi` is outside the package: `discover` and `Open` take the device list
  and the two stream constructors as arguments.
* The writer goroutine `runOutbound` and the caller are interleaved as a
  sequence of events (`Event`): an enqueue by the caller or one turn of the
  writer loop, each of them atomic.
-/

namespace Xair

/-! ## 64-bit integers -/

/-- Two's complement bit pattern (64 bits) of a signed integer. -/
def toBits (x : Int) : Nat := (x % 2 ^ 64).toNat

/-- Signed value of a 64-bit pattern. -/
def ofBits (n : Nat) : Int :=
  if n % 2 ^ 64 < 2 ^ 63 then ((n % 2 ^ 64 : Nat) : Int) else ((n % 2 ^ 64 : Nat) : Int) - 2 ^ 64

/-- Go `x << k` on `int64`. -/
def shl64 (x : Int) (k : Nat) : Int := ofBits (toBits x <<< k)

/-- Go `x & y` on `int64`. -/
def and64 (x y : Int) : Int := ofBits (toBits x &&& toBits y)

/-- Go `x | y` on `int64`. -/
def or64 (x y : Int) : Int := ofBits (toBits x ||| toBits y)

/-- Go `x - y` on `int64` (wraps around). -/
def sub64 (x y : Int) : Int := ofBits (toBits (x - y))

/-! ## midi.go -/

def MIDI_NOTE_OFF : Int := 0b1000
def MIDI_NOTE_ON : Int := 0b1001
def MIDI_CONTROL_CHANGE : Int := 0b1011
def MIDI_PROGRAM_CHANGE : Int := 0b1100

def XAIR_MIDI_MUTE_CHANNEL : Int := 2

structure MidiShort where
  status : Int
  data1 : Int
  data2 : Int
  deriving DecidableEq, Repr

/-- Go: `status: (cmd << 4 & 0xF0) | ((channel-1) & 0xF)`; in Go `<<` and `&`
have the same precedence and associate to the left. -/
def buildMidiShort (cmd channel note value : Int) : MidiShort :=
  { status := or64 (and64 (shl64 cmd 4) 0xF0) (and64 (sub64 channel 1) 0xF)
    data1 := note
    data2 := value }

/-! ## sysex.go -/

def SysexPrefix : List UInt8 := [0xF0, 0x00, 0x20, 0x32, 0x32]
def SysexSufix : List UInt8 := [0xF7]

/-- Go: `cmd = append(SysexPrefix, cmd...); cmd = append(cmd, SysexSufix...)`.
The literal `SysexPrefix` has length = capacity = 5, so `append` never writes
into its backing array: the function is pure. -/
def appendOscPrefixAndSuffic (cmd : List UInt8) : List UInt8 :=
  let cmd := SysexPrefix ++ cmd
  let cmd := cmd ++ SysexSufix
  cmd

/-- Go `[]byte(s)`: the UTF-8 bytes of a string. -/
def bytes (s : String) : List UInt8 := s.data.flatMap String.utf8EncodeChar

/-- Go `fmt.Sprintf("%02d", n)`: decimal digits, zero padded on the left up to
width 2, where the sign of a negative number takes one of the two columns. -/
def fmtD02 (n : Int) : String :=
  let prec : Nat := if n < 0 then 1 else 2
  let ds := Nat.toDigits 10 n.natAbs
  let ds := List.replicate (prec - ds.length) '0' ++ ds
  let s := if n < 0 then '-' :: ds else ds
  String.mk (List.replicate (2 - s.length) ' ' ++ s)

/-! ## xair.go -/

/-- What has been written to a `portmidi.Stream`. -/
inductive Wire where
  | short (status data1 data2 : Int)
  | sysEx (payload : List UInt8)
  deriving DecidableEq, Repr

/-- A `portmidi.Stream`: the device it was opened on and what was written to it. -/
structure Stream where
  device : Int
  written : List Wire
  deriving DecidableEq, Repr

/-- A Go channel that is not nil: its capacity and the buffered messages,
oldest first. -/
structure Chan (α : Type) where
  cap : Nat
  buf : List α
  deriving DecidableEq, Repr

structure XAir where
  inputStream : Stream
  outputStream : Stream
  midiQueue : Option (Chan MidiShort)
  sysExQueue : Option (Chan (List UInt8))
  deriving DecidableEq, Repr

def BUS_MAIN : Int := 0
def CHANNEL_MAIN : Int := 0

def MUTE : Bool := true
def UNMUTE : Bool := false

def LEVEL_1 : Int := 1
def LEVEL_2 : Int := 2
def LEVEL_3 : Int := 3
def LEVEL_4 : Int := 4
def LEVEL_5 : Int := 5
def LEVEL_6 : Int := 6
def LEVEL_7 : Int := 7

/-- Go `m[k] = v` on a `map[int]string` kept as its list of entries (keys
distinct): overwrite the entry of `k`, or add one. -/
def mapSet : List (Int × String) → Int → String → List (Int × String)
  | [], k, v => [(k, v)]
  | (k', v') :: rest, k, v => if k' = k then (k, v) :: rest else (k', v') :: mapSet rest k v

/-- Go `v, ok := m[k]`. -/
def mapGet : List (Int × String) → Int → Option String
  | [], _ => none
  | (k', v') :: rest, k => if k' = k then some v' else mapGet rest k

def levels : List (Int × String) :=
  let l : List (Int × String) := []
  let l := mapSet l LEVEL_1 "-35"
  let l := mapSet l LEVEL_2 "-15"
  let l := mapSet l LEVEL_3 "-5"
  let l := mapSet l LEVEL_4 "-2.4"
  let l := mapSet l LEVEL_5 "0"
  let l := mapSet l LEVEL_6 "2.4"
  let l := mapSet l LEVEL_7 "5"
  l

/-- The message of a `log.Fatal` / `log.Fatalf` call, by kind:
`"xair: bus out of range, got '%d', range: <range>"`,
`"xair: channel out of range, got '%d', range: 1-32"`,
`"xair: unknown level step '%d', available: 1-7"`,
`"xair: midi outbound queue is full"`, `"xair: sysex outbound queue is full"`. -/
inductive Fatal where
  | busOutOfRange (got : Int) (range : String)
  | channelOutOfRange (got : Int)
  | unknownLevelStep (got : Int)
  | midiQueueFull
  | sysExQueueFull
  deriving DecidableEq, Repr

/-- Result of a command: it returned (`done`, with the bridge afterwards), or
`log.Fatal` ended the process (`fatal`, with the bridge at that moment). -/
inductive Outcome where
  | done (x : XAir)
  | fatal (e : Fatal) (x : XAir)
  deriving DecidableEq, Repr

/-- A `portmidi.DeviceInfo`, with the fields that `discover` reads. -/
structure DeviceInfo where
  Name : String
  IsInputAvailable : Bool
  IsOutputAvailable : Bool
  deriving DecidableEq, Repr

/-- Go `strings.Contains(s, substr)`: `substr` starts at some position of `s`. -/
def stringsContains (s substr : String) : Bool :=
  s.data.tails.any fun t => substr.data.isPrefixOf t

/-- The `for i := 0; i < portmidi.CountDevices(); i++` loop of `discover` over the
devices still to visit, with the index `i` and the variables `in`, `out`
(here `inp`, `out`). -/
def discover.loop (deviceName : String) : List DeviceInfo → Int → Int → Int → Int × Int
  | [], _, inp, out => (inp, out)
  | info :: rest, i, inp, out =>
    if stringsContains info.Name deviceName then
      discover.loop deviceName rest (i + 1)
        (if info.IsInputAvailable then i else inp)
        (if info.IsOutputAvailable then i else out)
    else discover.loop deviceName rest (i + 1) inp out

/-- Go `discover`: `devices` is what `portmidi.Info` reports for the ids
`0 .. CountDevices()-1`.  The result is `(input, output)`, or the error. -/
def discover (devices : List DeviceInfo) (deviceName : String) : Except String (Int × Int) :=
  match discover.loop deviceName devices 0 (-1) (-1) with
  | (inp, out) =>
    if inp = -1 ∨ out = -1 then .error "xair: no device is connected"
    else .ok (inp, out)

/-- Go `Open`: `newInputStream` and `newOutputStream` stand for
`portmidi.NewInputStream(id, 1024)` and `portmidi.NewOutputStream(id, 1024, 0)`.
The struct literal `&XAir{inputStream: inStream, outputStream: outStream}` leaves
`midiQueue` and `sysExQueue` at their zero value, the nil channel. -/
def Open (devices : List DeviceInfo) (newInputStream newOutputStream : Int → Except String Stream)
    (deviceName : String) : Except String XAir :=
  match discover devices deviceName with
  | .error err => .error err
  | .ok (input, output) =>
    match newInputStream input with
    | .error err => .error err
    | .ok inStream =>
      match newOutputStream output with
      | .error err => .error err
      | .ok outStream =>
        .ok { inputStream := inStream, outputStream := outStream,
              midiQueue := none, sysExQueue := none }

/-- Go `select { case ch <- m: default: }` seen from the sender: the send
is taken when the channel is not nil and its buffer has room (the message goes to
the tail), otherwise the `default` branch runs and the result is `none`.

Go also takes the send when a receiver is parked on the channel, handing the
message over directly.  A receiver parks only on an empty buffer, so on a channel
of positive capacity that is a send into a buffer with room, followed by the
receive, and nothing is lost.  On a channel of capacity 0 the hand-over is the
only way a send is taken; it is not represented: for such a channel this is the
send with no receiver parked. -/
def trySend {α : Type} (ch : Option (Chan α)) (m : α) : Option (Option (Chan α)) :=
  match ch with
  | none => none
  | some c => if c.buf.length < c.cap then some (some { c with buf := c.buf ++ [m] }) else none

def queueMidiMessage (x : XAir) (m : MidiShort) : Outcome :=
  match trySend x.midiQueue m with
  | some q => .done { x with midiQueue := q }
  | none => .fatal .midiQueueFull x

def queueSysExMessage (x : XAir) (m : List UInt8) : Outcome :=
  match trySend x.sysExQueue m with
  | some q => .done { x with sysExQueue := q }
  | none => .fatal .sysExQueueFull x

/-- Go: `var midi MidiShort` is the zero value; both `buildMidiShort` calls are
expression statements whose result is not assigned. -/
def ChannelMute (x : XAir) (channel : Int) (mute : Bool) : Outcome :=
  let value : Int := if mute then 127 else 0
  let midi : MidiShort := { status := 0, data1 := 0, data2 := 0 }
  let _unused : MidiShort :=
    if channel = CHANNEL_MAIN then
      buildMidiShort MIDI_CONTROL_CHANGE XAIR_MIDI_MUTE_CHANNEL 31 value
    else
      buildMidiShort MIDI_CONTROL_CHANGE XAIR_MIDI_MUTE_CHANNEL (sub64 channel 1) value
  queueMidiMessage x midi

/-- The `for i, value := range levels()` loop of `ChannelLevel` over the entries
in the order the runtime visits them, and the `log.Fatalf` after it. -/
def ChannelLevel.loop (x : XAir) (channel bus level : Int) : List (Int × String) → Outcome
  | [] => .fatal (.unknownLevelStep level) x
  | (i, value) :: rest =>
    if level = i then
      if bus = BUS_MAIN then
        queueSysExMessage x (bytes ("/ch/" ++ fmtD02 channel ++ "/mix/fader " ++ value))
      else
        queueSysExMessage x
          (bytes ("/ch/" ++ fmtD02 channel ++ "/mix/" ++ fmtD02 bus ++ "/level " ++ value))
    else ChannelLevel.loop x channel bus level rest

def ChannelLevel (x : XAir) (channel bus level : Int) (order : List (Int × String)) : Outcome :=
  if bus < 0 ∨ bus > 16 then .fatal (.busOutOfRange bus "0(main) and 1-16") x
  else if channel < 1 ∨ channel > 32 then .fatal (.channelOutOfRange channel) x
  else ChannelLevel.loop x channel bus level order

def MainLevel.loop (x : XAir) (level : Int) : List (Int × String) → Outcome
  | [] => .fatal (.unknownLevelStep level) x
  | (i, value) :: rest =>
    if level = i then queueSysExMessage x (bytes ("/main/st/mix/fader " ++ value))
    else MainLevel.loop x level rest

def MainLevel (x : XAir) (level : Int) (order : List (Int × String)) : Outcome :=
  MainLevel.loop x level order

def BusLevel.loop (x : XAir) (bus level : Int) : List (Int × String) → Outcome
  | [] => .fatal (.unknownLevelStep level) x
  | (i, value) :: rest =>
    if level = i then
      queueSysExMessage x (bytes ("/bus/" ++ fmtD02 bus ++ "/mix/fader " ++ value))
    else BusLevel.loop x bus level rest

def BusLevel (x : XAir) (bus level : Int) (order : List (Int × String)) : Outcome :=
  if bus < 1 ∨ bus > 16 then .fatal (.busOutOfRange bus "1-16") x
  else BusLevel.loop x bus level order

def TriggerMidiDump (x : XAir) : Outcome :=
  let midi := buildMidiShort MIDI_CONTROL_CHANGE 1 127 127
  queueMidiMessage x midi

/-- Go `out := <-ch` as a `select` case: ready when the channel is not nil and
holds a message; the oldest message is taken. -/
def tryRecv {α : Type} : Option (Chan α) → Option (α × Option (Chan α))
  | none => none
  | some c =>
    match c.buf with
    | [] => none
    | m :: rest => some (m, some { c with buf := rest })

/-- One turn of the `for { select { ... } }` loop of `runOutbound`. -/
inductive Turn where
  | waits
  | wrote (x : XAir)
  | fatal (x : XAir)
  deriving DecidableEq, Repr

/-- The `case out := <- x.midiQueue` branch: `WriteShort`, then `log.Fatal` on an
error.  `writeErr` says whether the stream reports an error for this write. -/
def runOutbound.midiCase (x : XAir) (out : MidiShort) (q : Option (Chan MidiShort))
    (writeErr : Bool) : Turn :=
  if writeErr then .fatal { x with midiQueue := q }
  else
    .wrote { x with
      midiQueue := q
      outputStream := { x.outputStream with
        written := x.outputStream.written ++ [.short out.status out.data1 out.data2] } }

/-- The `case out := <-x.sysExQueue` branch: the bytes written are
`appendOscPrefixAndSuffic(out)`. -/
def runOutbound.sysExCase (x : XAir) (out : List UInt8) (q : Option (Chan (List UInt8)))
    (writeErr : Bool) : Turn :=
  let payload := appendOscPrefixAndSuffic out
  if writeErr then .fatal { x with sysExQueue := q }
  else
    .wrote { x with
      sysExQueue := q
      outputStream := { x.outputStream with
        written := x.outputStream.written ++ [.sysEx payload] } }

/-- One turn of `runOutbound`: the `select` waits when no queue has a message,
takes the only ready case, and when both are ready takes the one the runtime
picks (`pickMidi`). -/
def runOutbound.turn (x : XAir) (pickMidi writeErr : Bool) : Turn :=
  match tryRecv x.midiQueue, tryRecv x.sysExQueue with
  | none, none => .waits
  | some (out, q), none => runOutbound.midiCase x out q writeErr
  | none, some (out, q) => runOutbound.sysExCase x out q writeErr
  | some (out, q), some (out', q') =>
    if pickMidi then runOutbound.midiCase x out q writeErr
    else runOutbound.sysExCase x out' q' writeErr

/-- What happens on a bridge, in the order it happens: the caller queues a MIDI
message or a SysEx payload, or the writer loop makes one turn. -/
inductive Event where
  | queueMidi (m : MidiShort)
  | queueSysEx (p : List UInt8)
  | writer (pickMidi writeErr : Bool)
  deriving DecidableEq, Repr

/-- The bridge after a sequence of events, `none` when a `log.Fatal` ended the
process on the way. -/
def run : XAir → List Event → Option XAir
  | x, [] => some x
  | x, .queueMidi m :: es =>
    match queueMidiMessage x m with
    | .done y => run y es
    | .fatal _ _ => none
  | x, .queueSysEx p :: es =>
    match queueSysExMessage x p with
    | .done y => run y es
    | .fatal _ _ => none
  | x, .writer pickMidi writeErr :: es =>
    match runOutbound.turn x pickMidi writeErr with
    | .waits => run x es
    | .wrote y => run y es
    | .fatal _ => none

/-! ## Vocabulary of the specification -/

/-- The error is a range error (a bus or channel "out of range" message). -/
def Fatal.isRange : Fatal → Bool
  | .busOutOfRange _ _ => true
  | .channelOutOfRange _ => true
  | _ => false

/-- The error is an unknown-step error. -/
def Fatal.isUnknownStep : Fatal → Bool
  | .unknownLevelStep _ => true
  | _ => false

/-- The error is a queue saturation error. -/
def Fatal.isSaturation : Fatal → Bool
  | .midiQueueFull => true
  | .sysExQueueFull => true
  | _ => false

/-- The call failed with a range error. -/
def Outcome.rangeError : Outcome → Bool
  | .fatal e _ => e.isRange
  | .done _ => false

/-- The call failed with an unknown-step error. -/
def Outcome.unknownStep : Outcome → Bool
  | .fatal e _ => e.isUnknownStep
  | .done _ => false

/-- The bridge after the call, or at the moment the process stopped. -/
def Outcome.bridge : Outcome → XAir
  | .done x => x
  | .fatal _ x => x

/-- Specification, section 3 (LevelStep): the decibel string of a step in
`[1,7]`; no other step has one. -/
def dbString (level : Int) : Option String :=
  if level = 1 then some "-35"
  else if level = 2 then some "-15"
  else if level = 3 then some "-5"
  else if level = 4 then some "-2.4"
  else if level = 5 then some "0"
  else if level = 6 then some "2.4"
  else if level = 7 then some "5"
  else none

/-- Specification (`{n:02d}` for `0 ≤ n ≤ 99`): the tens digit then the units digit. -/
def twoDigit (n : Int) : String :=
  String.mk [Char.ofNat (48 + n.toNat / 10 % 10), Char.ofNat (48 + n.toNat % 10)]

/-- The SysEx queue is a channel with room for one more message. -/
def XAir.sysExRoom (x : XAir) (c : Chan (List UInt8)) : Prop :=
  x.sysExQueue = some c ∧ c.buf.length < c.cap

/-- The MIDI queue is a channel with room for one more message. -/
def XAir.midiRoom (x : XAir) (c : Chan MidiShort) : Prop :=
  x.midiQueue = some c ∧ c.buf.length < c.cap

/-- The bridge with `m` added at the tail of the SysEx queue `c`. -/
def XAir.pushSysEx (x : XAir) (c : Chan (List UInt8)) (m : List UInt8) : XAir :=
  { x with sysExQueue := some { c with buf := c.buf ++ [m] } }

/-- The bridge with `m` added at the tail of the MIDI queue `c`. -/
def XAir.pushMidi (x : XAir) (c : Chan MidiShort) (m : MidiShort) : XAir :=
  { x with midiQueue := some { c with buf := c.buf ++ [m] } }

/-- Go `len(ch)`: number of buffered messages (0 for the nil channel). -/
def qlen {α : Type} : Option (Chan α) → Nat
  | none => 0
  | some c => c.buf.length

/-- Go `cap(ch)`: capacity of the buffer (0 for the nil channel). -/
def qcap {α : Type} : Option (Chan α) → Nat
  | none => 0
  | some c => c.cap

/-- The buffered messages of a queue, oldest first. -/
def contents {α : Type} : Option (Chan α) → List α
  | none => []
  | some c => c.buf

/-- The error of a failed call. -/
def Outcome.error : Outcome → Option Fatal
  | .fatal e _ => some e
  | .done _ => none

/-- The MIDI short messages written to a stream, in the order written. -/
def shorts : List Wire → List MidiShort
  | [] => []
  | .short s d1 d2 :: ws => { status := s, data1 := d1, data2 := d2 } :: shorts ws
  | .sysEx _ :: ws => shorts ws

/-- The SysEx frames written to a stream, in the order written. -/
def sysExs : List Wire → List (List UInt8)
  | [] => []
  | .short _ _ _ :: ws => sysExs ws
  | .sysEx p :: ws => p :: sysExs ws

/-- The MIDI messages the caller queues in a sequence of events. -/
def queuedMidi : List Event → List MidiShort
  | [] => []
  | .queueMidi m :: es => m :: queuedMidi es
  | _ :: es => queuedMidi es

/-- The SysEx payloads the caller queues in a sequence of events. -/
def queuedSysEx : List Event → List (List UInt8)
  | [] => []
  | .queueSysEx p :: es => p :: queuedSysEx es
  | _ :: es => queuedSysEx es

/-- Device number `i` exists, its name contains `deviceName` and it has input
available. -/
def matchesInput (devices : List DeviceInfo) (deviceName : String) (i : Nat) : Prop :=
  ∃ d, devices[i]? = some d ∧ stringsContains d.Name deviceName = true ∧
    d.IsInputAvailable = true

/-- Device number `i` exists, its name contains `deviceName` and it has output
available. -/
def matchesOutput (devices : List DeviceInfo) (deviceName : String) (i : Nat) : Prop :=
  ∃ d, devices[i]? = some d ∧ stringsContains d.Name deviceName = true ∧
    d.IsOutputAvailable = true

/-- What a level command does once its arguments are fixed: stop with an error
(`inl`) or queue one SysEx payload (`inr`). -/
def act (r : Fatal ⊕ List UInt8) (x : XAir) : Outcome :=
  match r with
  | .inl e => .fatal e x
  | .inr m => queueSysExMessage x m

/-- The call returned. -/
def Outcome.isDone : Outcome → Bool
  | .done _ => true
  | .fatal _ _ => false

/-- A call on bridge `x` with outcome `o` is all or nothing on the queues: when
it fails the bridge is as before the call, when it returns the SysEx queue holds
exactly one more payload, at its tail, and the MIDI queue is as before. -/
def AllOrNothing (x : XAir) (o : Outcome) : Prop :=
  (∀ e y, o = .fatal e y → y = x) ∧
  (∀ y, o = .done y →
    (∃ p, contents y.sysExQueue = contents x.sysExQueue ++ [p]) ∧
    qlen y.sysExQueue = qlen x.sysExQueue + 1 ∧
    y.midiQueue = x.midiQueue)

/-- The outcome `o` of a call on bridge `x` left the MIDI queue and both streams
as they were. -/
def KeepsMidiSide (x : XAir) (o : Outcome) : Prop :=
  o.bridge.midiQueue = x.midiQueue ∧ o.bridge.inputStream = x.inputStream ∧
    o.bridge.outputStream = x.outputStream

/-- The outcome `o` of a call on bridge `x` left the SysEx queue and both streams
as they were. -/
def KeepsSysExSide (x : XAir) (o : Outcome) : Prop :=
  o.bridge.sysExQueue = x.sysExQueue ∧ o.bridge.inputStream = x.inputStream ∧
    o.bridge.outputStream = x.outputStream

/-- No enumerated entry has both input and output available.  PortMidi lists a
port as an input entry or as an output entry (when it adds a device it sets
`output = !input`; a port that does both appears as two entries), so the lists
that `portmidi.Info` reports are of this kind. -/
def OneDirection (devices : List DeviceInfo) : Prop :=
  ∀ d ∈ devices, ¬ (d.IsInputAvailable = true ∧ d.IsOutputAvailable = true)

/-- Index (counted from `i`) of the last device satisfying `p`, or `acc` when
there is none: what each of the two variables of the `discover` loop computes. -/
def lastMatch (p : DeviceInfo → Bool) : List DeviceInfo → Int → Int → Int
  | [], _, acc => acc
  | d :: rest, i, acc => lastMatch p rest (i + 1) (if p d then i else acc)

/-- The device has input available and its name contains `deviceName`. -/
def isInputMatch (deviceName : String) (d : DeviceInfo) : Bool :=
  stringsContains d.Name deviceName && d.IsInputAvailable

/-- The device has output available and its name contains `deviceName`. -/
def isOutputMatch (deviceName : String) (d : DeviceInfo) : Bool :=
  stringsContains d.Name deviceName && d.IsOutputAvailable

/-- The bytes are all 7-bit and exactly `n` of them are spaces. -/
def Safe (n : Nat) (l : List UInt8) : Prop :=
  (∀ b ∈ l, b < 0x80) ∧ l.count 0x20 = n

/-- A SysEx payload of the OSC subset: 7-bit bytes only, `/` first, exactly one
space. -/
def SafePayload (p : List UInt8) : Prop :=
  (∀ b ∈ p, b < 0x80) ∧ p.head? = some 0x2F ∧ p.count 0x20 = 1

/-- Exactly two bytes, both decimal digits (`0x30` to `0x39`). -/
def TwoDigits (l : List UInt8) : Prop :=
  l.length = 2 ∧ ∀ b ∈ l, 0x30 ≤ b ∧ b ≤ 0x39

/-- In a frame, `0xF0` occurs only at index 0 and `0xF7` only at the last index. -/
def MarkersAtEnds (f : List UInt8) : Prop :=
  ∀ i : Nat, (f[i]? = some 0xF0 → i = 0) ∧ (f[i]? = some 0xF7 → i + 1 = f.length)

/-- Check used on the pieces of a payload: 7-bit bytes, none of them a space. -/
def sevenBitNoSpace (l : List UInt8) : Bool :=
  l.all fun b => decide (b < 0x80) && (b != 0x20)

/-- Check used on the number fields of a payload: two bytes, both digits. -/
def isTwoDigits (l : List UInt8) : Bool :=
  l.length == 2 && l.all fun b => decide (0x30 ≤ b) && decide (b ≤ 0x39)

/-- A bridge on devices 0 and 1 whose two queues are empty channels of capacity
1024, used for the concrete evaluations below. -/
def sampleBridge : XAir :=
  { inputStream := { device := 0, written := [] }
    outputStream := { device := 1, written := [] }
    midiQueue := some { cap := 1024, buf := [] }
    sysExQueue := some { cap := 1024, buf := [] } }

end Xair

namespace Xair

/-! ## 64-bit integers: basic facts -/

theorem toBits_lt (x : Int) : toBits x < 2 ^ 64 := by
  unfold toBits
  omega

theorem toBits_ofBits (n : Nat) (h : n < 2 ^ 64) : toBits (ofBits n) = n := by
  unfold toBits ofBits
  split <;> omega

theorem toBits_and64 (x y : Int) : toBits (and64 x y) = toBits x &&& toBits y := by
  unfold and64
  exact toBits_ofBits _ (Nat.lt_of_le_of_lt Nat.and_le_right (toBits_lt y))

theorem toBits_or64 (x y : Int) : toBits (or64 x y) = toBits x ||| toBits y := by
  unfold or64
  exact toBits_ofBits _ (Nat.or_lt_two_pow (toBits_lt x) (toBits_lt y))

theorem nibble_low (a b : Nat) : ((a &&& 240) ||| (b &&& 15)) &&& 15 = b &&& 15 := by
  have h0 : (240 &&& 15 : Nat) = 0 := by decide
  have h1 : (15 &&& 15 : Nat) = 15 := by decide
  rw [Nat.and_distrib_right, Nat.and_assoc, Nat.and_assoc, h0, h1, Nat.and_zero, Nat.zero_or]

theorem nibble_high (a b : Nat) : ((a &&& 240) ||| (b &&& 15)) &&& 240 = a &&& 240 := by
  have h0 : (15 &&& 240 : Nat) = 0 := by decide
  have h1 : (240 &&& 240 : Nat) = 240 := by decide
  rw [Nat.and_distrib_right, Nat.and_assoc, Nat.and_assoc, h0, h1, Nat.and_zero, Nat.or_zero]

theorem toBits_0xF : toBits 0xF = 15 := by decide

theorem toBits_0xF0 : toBits 0xF0 = 240 := by decide

/-- Bit pattern of the status byte built by `buildMidiShort`. -/
theorem toBits_status (cmd channel note value : Int) :
    toBits (buildMidiShort cmd channel note value).status
      = (toBits (shl64 cmd 4) &&& 240) ||| (toBits (sub64 channel 1) &&& 15) := by
  simp only [buildMidiShort, toBits_or64, toBits_and64, toBits_0xF, toBits_0xF0]

/-! ## Wire encoders -/

/-- C1: for every `cmd`, `note`, `value` and every channel in `[1,16]`, the status
of `buildMidiShort cmd channel note value` has low nibble `(channel-1) & 0xF`
(which is `channel - 1`) and high nibble `(cmd<<4) & 0xF0`, it is
`((cmd<<4) & 0xF0) | ((channel-1) & 0xF)`, and `data1 = note`, `data2 = value`. -/
theorem buildMidiShort_nibbles (cmd channel note value : Int)
    (hlo : 1 ≤ channel) (hhi : channel ≤ 16) :
    and64 (buildMidiShort cmd channel note value).status 0x0F
        = and64 (sub64 channel 1) 0xF ∧
      and64 (sub64 channel 1) 0xF = channel - 1 ∧
      and64 (buildMidiShort cmd channel note value).status 0xF0
        = and64 (shl64 cmd 4) 0xF0 ∧
      (buildMidiShort cmd channel note value).status
        = or64 (and64 (shl64 cmd 4) 0xF0) (and64 (sub64 channel 1) 0xF) ∧
      (buildMidiShort cmd channel note value).data1 = note ∧
      (buildMidiShort cmd channel note value).data2 = value := by
  refine ⟨?_, ?_, ?_, rfl, rfl, rfl⟩
  · show ofBits (_ &&& toBits 0xF) = ofBits (_ &&& toBits 0xF)
    rw [toBits_status, toBits_0xF, nibble_low]
  · interval_cases channel <;> decide
  · show ofBits (_ &&& toBits 0xF0) = ofBits (_ &&& toBits 0xF0)
    rw [toBits_status, toBits_0xF0, nibble_high]

/-- Instance of C1 on a Control-Change for channel 3, with the nibbles as numbers. -/
theorem buildMidiShort_nibbles_witness :
    and64 (buildMidiShort MIDI_CONTROL_CHANGE 3 60 100).status 0x0F = 2 ∧
      and64 (buildMidiShort MIDI_CONTROL_CHANGE 3 60 100).status 0xF0 = 0xB0 ∧
      (buildMidiShort MIDI_CONTROL_CHANGE 3 60 100).status = 0xB2 ∧
      (buildMidiShort MIDI_CONTROL_CHANGE 3 60 100).data1 = 60 ∧
      (buildMidiShort MIDI_CONTROL_CHANGE 3 60 100).data2 = 100 := by
  have h := buildMidiShort_nibbles MIDI_CONTROL_CHANGE 3 60 100 (by decide) (by decide)
  refine ⟨?_, ?_, by decide, h.2.2.2.2.1, h.2.2.2.2.2⟩
  · rw [h.1, h.2.1]; decide
  · rw [h.2.2.1]; decide

/-- C2: for every byte sequence `p`, `appendOscPrefixAndSuffic p` is
`F0 00 20 32 32 ++ p ++ F7`: its length is `len p + 6`, its first five bytes are
the prefix, its last byte is `F7`, dropping the first five bytes and the last one
gives back `p`; and the envelope is injective. -/
theorem appendOscPrefixAndSuffic_envelope :
    (∀ p : List UInt8,
      appendOscPrefixAndSuffic p = [0xF0, 0x00, 0x20, 0x32, 0x32] ++ p ++ [0xF7] ∧
      (appendOscPrefixAndSuffic p).length = p.length + 6 ∧
      (appendOscPrefixAndSuffic p).take 5 = [0xF0, 0x00, 0x20, 0x32, 0x32] ∧
      (appendOscPrefixAndSuffic p).getLast? = some 0xF7 ∧
      ((appendOscPrefixAndSuffic p).drop 5).dropLast = p) ∧
    Function.Injective appendOscPrefixAndSuffic := by
  constructor
  · intro p
    refine ⟨rfl, ?_, rfl, ?_, ?_⟩
    · simp [appendOscPrefixAndSuffic, SysexPrefix, SysexSufix]
    · show ((SysexPrefix ++ p) ++ [(0xF7 : UInt8)]).getLast? = some 0xF7
      simp
    · simp [appendOscPrefixAndSuffic, SysexPrefix, SysexSufix]
  · intro p q h
    simpa [appendOscPrefixAndSuffic, SysexPrefix, SysexSufix] using h

/-! ## The level table and the range loops -/

theorem levels_eq :
    levels = [(1, "-35"), (2, "-15"), (3, "-5"), (4, "-2.4"), (5, "0"), (6, "2.4"), (7, "5")] := by
  decide

theorem levels_keys_nodup : (levels.map Prod.fst).Nodup := by
  rw [levels_eq]; decide

/-- The table built by `levels()` is the table of the specification. -/
theorem mapGet_levels (k : Int) : mapGet levels k = dbString k := by
  rw [levels_eq]
  rcases (by omega : k = 1 ∨ k = 2 ∨ k = 3 ∨ k = 4 ∨ k = 5 ∨ k = 6 ∨ k = 7 ∨ (k < 1 ∨ 7 < k))
    with rfl | rfl | rfl | rfl | rfl | rfl | rfl | h
  all_goals first
    | decide
    | (have e1 : ¬ k = 1 := by omega
       have e2 : ¬ k = 2 := by omega
       have e3 : ¬ k = 3 := by omega
       have e4 : ¬ k = 4 := by omega
       have e5 : ¬ k = 5 := by omega
       have e6 : ¬ k = 6 := by omega
       have e7 : ¬ k = 7 := by omega
       have f1 : ¬ 1 = k := by omega
       have f2 : ¬ 2 = k := by omega
       have f3 : ¬ 3 = k := by omega
       have f4 : ¬ 4 = k := by omega
       have f5 : ¬ 5 = k := by omega
       have f6 : ¬ 6 = k := by omega
       have f7 : ¬ 7 = k := by omega
       simp only [mapGet, dbString, if_neg e1, if_neg e2, if_neg e3, if_neg e4, if_neg e5,
         if_neg e6, if_neg e7, if_neg f1, if_neg f2, if_neg f3, if_neg f4, if_neg f5, if_neg f6,
         if_neg f7])

theorem dbString_isSome (k : Int) : (dbString k).isSome = true ↔ 1 ≤ k ∧ k ≤ 7 := by
  rcases (by omega : k = 1 ∨ k = 2 ∨ k = 3 ∨ k = 4 ∨ k = 5 ∨ k = 6 ∨ k = 7 ∨ (k < 1 ∨ 7 < k))
    with rfl | rfl | rfl | rfl | rfl | rfl | rfl | h
  all_goals first
    | decide
    | (have e1 : ¬ k = 1 := by omega
       have e2 : ¬ k = 2 := by omega
       have e3 : ¬ k = 3 := by omega
       have e4 : ¬ k = 4 := by omega
       have e5 : ¬ k = 5 := by omega
       have e6 : ¬ k = 6 := by omega
       have e7 : ¬ k = 7 := by omega
       simp only [dbString, if_neg e1, if_neg e2, if_neg e3, if_neg e4, if_neg e5,
         if_neg e6, if_neg e7]
       constructor
       · intro hf; exact absurd hf (by decide)
       · intro hk; omega)

/-- With distinct keys, a lookup finds exactly the entries of the list. -/
theorem mapGet_eq_some_iff (l : List (Int × String)) (hnd : (l.map Prod.fst).Nodup)
    (k : Int) (v : String) : mapGet l k = some v ↔ (k, v) ∈ l := by
  induction l with
  | nil => simp [mapGet]
  | cons e rest ih =>
    obtain ⟨k', v'⟩ := e
    simp only [List.map_cons, List.nodup_cons] at hnd
    have hk' : ∀ w, (k', w) ∉ rest := fun w hw =>
      hnd.1 (List.mem_map.mpr ⟨(k', w), hw, rfl⟩)
    simp only [mapGet, List.mem_cons, Prod.mk.injEq]
    by_cases h : k' = k
    · subst h
      simp only [if_true, Option.some.injEq, true_and]
      constructor
      · intro hv; exact Or.inl hv.symm
      · rintro (hv | hmem)
        · exact hv.symm
        · exact absurd hmem (hk' v)
    · simp only [if_neg h, ih hnd.2]
      constructor
      · intro hmem; exact Or.inr hmem
      · rintro (⟨hk, _⟩ | hmem)
        · exact absurd hk.symm h
        · exact hmem

/-- A lookup in the table does not depend on the order of its entries. -/
theorem mapGet_perm (order : List (Int × String)) (hperm : order.Perm levels) (k : Int) :
    mapGet order k = dbString k := by
  rw [← mapGet_levels]
  have hnd : (order.map Prod.fst).Nodup :=
    (hperm.map Prod.fst).nodup_iff.mpr levels_keys_nodup
  apply Option.ext
  intro v
  simp only [Option.mem_def]
  rw [mapGet_eq_some_iff order hnd, mapGet_eq_some_iff levels levels_keys_nodup]
  exact hperm.mem_iff

theorem ChannelLevel_loop_eq (x : XAir) (channel bus level : Int) (order : List (Int × String)) :
    ChannelLevel.loop x channel bus level order =
      match mapGet order level with
      | some value =>
        if bus = BUS_MAIN then
          queueSysExMessage x (bytes ("/ch/" ++ fmtD02 channel ++ "/mix/fader " ++ value))
        else
          queueSysExMessage x
            (bytes ("/ch/" ++ fmtD02 channel ++ "/mix/" ++ fmtD02 bus ++ "/level " ++ value))
      | none => .fatal (.unknownLevelStep level) x := by
  induction order with
  | nil => rfl
  | cons e rest ih =>
    obtain ⟨i, value⟩ := e
    by_cases h : level = i
    · simp [ChannelLevel.loop, mapGet, h]
    · have h' : ¬ i = level := fun e => h e.symm
      simp [ChannelLevel.loop, mapGet, h, h', ih]

theorem MainLevel_loop_eq (x : XAir) (level : Int) (order : List (Int × String)) :
    MainLevel.loop x level order =
      match mapGet order level with
      | some value => queueSysExMessage x (bytes ("/main/st/mix/fader " ++ value))
      | none => .fatal (.unknownLevelStep level) x := by
  induction order with
  | nil => rfl
  | cons e rest ih =>
    obtain ⟨i, value⟩ := e
    by_cases h : level = i
    · simp [MainLevel.loop, mapGet, h]
    · have h' : ¬ i = level := fun e => h e.symm
      simp [MainLevel.loop, mapGet, h, h', ih]

theorem BusLevel_loop_eq (x : XAir) (bus level : Int) (order : List (Int × String)) :
    BusLevel.loop x bus level order =
      match mapGet order level with
      | some value => queueSysExMessage x (bytes ("/bus/" ++ fmtD02 bus ++ "/mix/fader " ++ value))
      | none => .fatal (.unknownLevelStep level) x := by
  induction order with
  | nil => rfl
  | cons e rest ih =>
    obtain ⟨i, value⟩ := e
    by_cases h : level = i
    · simp [BusLevel.loop, mapGet, h]
    · have h' : ¬ i = level := fun e => h e.symm
      simp [BusLevel.loop, mapGet, h, h', ih]

/-- For `0 ≤ n ≤ 99`, `%02d` prints the tens digit and the units digit. -/
theorem fmtD02_eq_twoDigit (n : Int) (h0 : 0 ≤ n) (h99 : n ≤ 99) : fmtD02 n = twoDigit n := by
  have key : ∀ k, k < 100 → fmtD02 (k : Nat) = twoDigit (k : Nat) := by decide
  lift n to ℕ using h0
  exact key n (by omega)

theorem queueSysExMessage_room (x : XAir) (q : Chan (List UInt8)) (m : List UInt8)
    (hq : x.sysExRoom q) : queueSysExMessage x m = .done (x.pushSysEx q m) := by
  obtain ⟨hs, hlt⟩ := hq
  simp [queueSysExMessage, trySend, hs, hlt, XAir.pushSysEx]

theorem queueMidiMessage_room (x : XAir) (q : Chan MidiShort) (m : MidiShort)
    (hq : x.midiRoom q) : queueMidiMessage x m = .done (x.pushMidi q m) := by
  obtain ⟨hs, hlt⟩ := hq
  simp [queueMidiMessage, trySend, hs, hlt, XAir.pushMidi]

theorem dbString_of_mem (level : Int) (h1 : 1 ≤ level) (h7 : level ≤ 7) :
    ∃ db, dbString level = some db := by
  have h := (dbString_isSome level).mpr ⟨h1, h7⟩
  exact Option.isSome_iff_exists.mp h

theorem dbString_none (level : Int) (h : level < 1 ∨ 7 < level) : dbString level = none := by
  cases hd : dbString level with
  | none => rfl
  | some v =>
    have := (dbString_isSome level).mp (by simp [hd])
    omega

theorem queueSysExMessage_rangeError (x : XAir) (m : List UInt8) :
    (queueSysExMessage x m).rangeError = false := by
  unfold queueSysExMessage
  split <;> rfl

theorem queueSysExMessage_unknownStep (x : XAir) (m : List UInt8) :
    (queueSysExMessage x m).unknownStep = false := by
  unfold queueSysExMessage
  split <;> rfl

/-! ## Level commands -/

/-- C3: for a channel in `[1,32]`, a bus in `[0,16]` and a level in `[1,7]`, with
room in the SysEx queue and whatever order the table is visited in,
`ChannelLevel` adds exactly one payload at the tail of the SysEx queue:
`/ch/CC/mix/fader DB` when the bus is 0 and `/ch/CC/mix/BB/level DB` otherwise, where
`CC` and `BB` are the two-digit channel and bus (not shifted) and `DB` is the
decibel string of the level. -/
theorem ChannelLevel_payload (x : XAir) (q : Chan (List UInt8)) (channel bus level : Int)
    (order : List (Int × String)) (hq : x.sysExRoom q) (hperm : order.Perm levels)
    (hc1 : 1 ≤ channel) (hc32 : channel ≤ 32) (hb0 : 0 ≤ bus) (hb16 : bus ≤ 16)
    (hl1 : 1 ≤ level) (hl7 : level ≤ 7) :
    ∃ db, dbString level = some db ∧
      ChannelLevel x channel bus level order = .done (x.pushSysEx q (bytes
        (if bus = 0 then "/ch/" ++ twoDigit channel ++ "/mix/fader " ++ db
         else "/ch/" ++ twoDigit channel ++ "/mix/" ++ twoDigit bus ++ "/level " ++ db))) := by
  obtain ⟨db, hdb⟩ := dbString_of_mem level hl1 hl7
  refine ⟨db, hdb, ?_⟩
  unfold ChannelLevel
  rw [if_neg (by omega), if_neg (by omega), ChannelLevel_loop_eq, mapGet_perm order hperm, hdb]
  simp only [BUS_MAIN]
  rw [fmtD02_eq_twoDigit channel (by omega) (by omega),
    fmtD02_eq_twoDigit bus hb0 (by omega)]
  by_cases hb : bus = 0
  · rw [if_pos hb, if_pos hb]
    exact queueSysExMessage_room x q _ hq
  · rw [if_neg hb, if_neg hb]
    exact queueSysExMessage_room x q _ hq

/-- The two examples of C3: `ChannelLevel(5,0,5)` queues `/ch/05/mix/fader 0` and
`ChannelLevel(5,3,1)` queues `/ch/05/mix/03/level -35`. -/
theorem ChannelLevel_payload_witness :
    ChannelLevel sampleBridge 5 0 5 levels
        = .done (sampleBridge.pushSysEx ⟨1024, []⟩ (bytes "/ch/05/mix/fader 0")) ∧
      ChannelLevel sampleBridge 5 3 1 levels
        = .done (sampleBridge.pushSysEx ⟨1024, []⟩ (bytes "/ch/05/mix/03/level -35")) := by
  constructor
  · obtain ⟨db, hdb, h⟩ := ChannelLevel_payload sampleBridge ⟨1024, []⟩ 5 0 5 levels
      ⟨rfl, by decide⟩ (List.Perm.refl _) (by decide) (by decide) (by decide) (by decide)
      (by decide) (by decide)
    have h5 : dbString 5 = some "0" := by decide
    rw [h5] at hdb
    cases hdb
    rw [h]
    decide
  · obtain ⟨db, hdb, h⟩ := ChannelLevel_payload sampleBridge ⟨1024, []⟩ 5 3 1 levels
      ⟨rfl, by decide⟩ (List.Perm.refl _) (by decide) (by decide) (by decide) (by decide)
      (by decide) (by decide)
    have h1 : dbString 1 = some "-35" := by decide
    rw [h1] at hdb
    cases hdb
    rw [h]
    decide

/-- C4: the table of `levels()` has exactly the keys 1 to 7, with the strings
`-35`, `-15`, `-5`, `-2.4`, `0`, `2.4`, `5`; and for a level in `[1,7]`, with room
in the SysEx queue, `MainLevel` adds exactly one payload, `/main/st/mix/fader `
followed by the string of that step, whatever order the table is visited in. -/
theorem MainLevel_table (x : XAir) (q : Chan (List UInt8)) (level : Int)
    (order : List (Int × String)) (hq : x.sysExRoom q) (hperm : order.Perm levels)
    (hl1 : 1 ≤ level) (hl7 : level ≤ 7) :
    (mapGet levels 1 = some "-35" ∧ mapGet levels 2 = some "-15" ∧ mapGet levels 3 = some "-5" ∧
      mapGet levels 4 = some "-2.4" ∧ mapGet levels 5 = some "0" ∧ mapGet levels 6 = some "2.4" ∧
      mapGet levels 7 = some "5") ∧
    levels.length = 7 ∧
    (∀ k, (mapGet levels k).isSome = true ↔ 1 ≤ k ∧ k ≤ 7) ∧
    ∃ db, mapGet levels level = some db ∧
      MainLevel x level order = .done (x.pushSysEx q (bytes ("/main/st/mix/fader " ++ db))) := by
  refine ⟨by decide, by decide, ?_, ?_⟩
  · intro k
    rw [mapGet_levels]
    exact dbString_isSome k
  · obtain ⟨db, hdb⟩ := dbString_of_mem level hl1 hl7
    refine ⟨db, by rw [mapGet_levels, hdb], ?_⟩
    unfold MainLevel
    rw [MainLevel_loop_eq, mapGet_perm order hperm, hdb]
    exact queueSysExMessage_room x q _ hq

/-- Instance of C4: `MainLevel(4)` queues `/main/st/mix/fader -2.4`, also when
the table is visited from the last entry to the first. -/
theorem MainLevel_table_witness :
    MainLevel sampleBridge 4 levels.reverse
      = .done (sampleBridge.pushSysEx ⟨1024, []⟩ (bytes "/main/st/mix/fader -2.4")) := by
  obtain ⟨db, hdb, h⟩ := (MainLevel_table sampleBridge ⟨1024, []⟩ 4 levels.reverse
    ⟨rfl, by decide⟩ (List.reverse_perm _) (by decide) (by decide)).2.2.2
  have h4 : mapGet levels 4 = some "-2.4" := by decide
  rw [h4] at hdb
  cases hdb
  exact h

/-- C5: for a bus in `[1,16]` and a level in `[1,7]`, with room in the SysEx
queue and whatever order the table is visited in, `BusLevel` adds exactly one
payload at the tail of the SysEx queue: `/bus/BB/mix/fader DB`, with `BB` the
two-digit bus and `DB` the decibel string of the level. -/
theorem BusLevel_payload (x : XAir) (q : Chan (List UInt8)) (bus level : Int)
    (order : List (Int × String)) (hq : x.sysExRoom q) (hperm : order.Perm levels)
    (hb1 : 1 ≤ bus) (hb16 : bus ≤ 16) (hl1 : 1 ≤ level) (hl7 : level ≤ 7) :
    ∃ db, dbString level = some db ∧
      BusLevel x bus level order
        = .done (x.pushSysEx q (bytes ("/bus/" ++ twoDigit bus ++ "/mix/fader " ++ db))) := by
  obtain ⟨db, hdb⟩ := dbString_of_mem level hl1 hl7
  refine ⟨db, hdb, ?_⟩
  unfold BusLevel
  rw [if_neg (by omega), BusLevel_loop_eq, mapGet_perm order hperm, hdb]
  simp only
  rw [fmtD02_eq_twoDigit bus (by omega) (by omega)]
  exact queueSysExMessage_room x q _ hq

/-- The example of C5: `BusLevel(16,7)` queues `/bus/16/mix/fader 5`. -/
theorem BusLevel_payload_witness :
    BusLevel sampleBridge 16 7 levels
      = .done (sampleBridge.pushSysEx ⟨1024, []⟩ (bytes "/bus/16/mix/fader 5")) := by
  obtain ⟨db, hdb, h⟩ := BusLevel_payload sampleBridge ⟨1024, []⟩ 16 7 levels
    ⟨rfl, by decide⟩ (List.Perm.refl _) (by decide) (by decide) (by decide) (by decide)
  have h7 : dbString 7 = some "5" := by decide
  rw [h7] at hdb
  cases hdb
  rw [h]
  decide

theorem ChannelLevel_loop_rangeError (x : XAir) (channel bus level : Int)
    (order : List (Int × String)) :
    (ChannelLevel.loop x channel bus level order).rangeError = false := by
  rw [ChannelLevel_loop_eq]
  cases mapGet order level with
  | none => rfl
  | some v =>
    simp only
    split <;> exact queueSysExMessage_rangeError _ _

theorem BusLevel_loop_rangeError (x : XAir) (bus level : Int) (order : List (Int × String)) :
    (BusLevel.loop x bus level order).rangeError = false := by
  rw [BusLevel_loop_eq]
  cases mapGet order level with
  | none => rfl
  | some v => exact queueSysExMessage_rangeError _ _

/-- C6: `ChannelLevel` fails with a range error exactly when `bus < 0`, `bus > 16`,
`channel < 1` or `channel > 32`, and `BusLevel` exactly when `bus < 1` or
`bus > 16`, for every bridge, level and visiting order; in particular
`BusLevel(17,7)` fails with a range error. -/
theorem range_error_iff (x : XAir) (channel bus level : Int) (order : List (Int × String)) :
    ((ChannelLevel x channel bus level order).rangeError = true
        ↔ (bus < 0 ∨ bus > 16 ∨ channel < 1 ∨ channel > 32)) ∧
      ((BusLevel x bus level order).rangeError = true ↔ (bus < 1 ∨ bus > 16)) ∧
      BusLevel x 17 7 order = .fatal (.busOutOfRange 17 "1-16") x := by
  refine ⟨?_, ?_, ?_⟩
  · unfold ChannelLevel
    by_cases hb : bus < 0 ∨ bus > 16
    · rw [if_pos hb]
      simp only [Outcome.rangeError, Fatal.isRange, true_iff]
      omega
    · rw [if_neg hb]
      by_cases hc : channel < 1 ∨ channel > 32
      · rw [if_pos hc]
        simp only [Outcome.rangeError, Fatal.isRange, true_iff]
        omega
      · rw [if_neg hc, ChannelLevel_loop_rangeError]
        constructor
        · intro h; exact absurd h (by decide)
        · intro h; omega
  · unfold BusLevel
    by_cases hb : bus < 1 ∨ bus > 16
    · rw [if_pos hb]
      simp only [Outcome.rangeError, Fatal.isRange, true_iff]
      omega
    · rw [if_neg hb, BusLevel_loop_rangeError]
      constructor
      · intro h; exact absurd h (by decide)
      · intro h; omega
  · unfold BusLevel
    rw [if_pos (by decide)]

/-- The bounds of C6 on the sample bridge: bus 0, bus 16, channel 1 and channel
32 pass the range checks of `ChannelLevel`, channel 0, channel 33, bus -1 and
bus 17 do not; `BusLevel` rejects bus 0 and bus 17 and accepts 1 and 16. -/
theorem range_error_iff_witness :
    (ChannelLevel sampleBridge 1 0 1 levels).rangeError = false ∧
      (ChannelLevel sampleBridge 32 16 1 levels).rangeError = false ∧
      (ChannelLevel sampleBridge 0 1 1 levels).rangeError = true ∧
      (ChannelLevel sampleBridge 33 1 1 levels).rangeError = true ∧
      (ChannelLevel sampleBridge 1 (-1) 1 levels).rangeError = true ∧
      (ChannelLevel sampleBridge 1 17 1 levels).rangeError = true ∧
      (BusLevel sampleBridge 0 7 levels).rangeError = true ∧
      (BusLevel sampleBridge 17 7 levels).rangeError = true ∧
      (BusLevel sampleBridge 1 7 levels).rangeError = false ∧
      (BusLevel sampleBridge 16 7 levels).rangeError = false := by
  have hC := fun c b => (range_error_iff sampleBridge c b 1 levels).1
  have hB := fun b => (range_error_iff sampleBridge 1 b 7 levels).2.1
  refine ⟨?_, ?_, (hC 0 1).mpr (by decide), (hC 33 1).mpr (by decide),
    (hC 1 (-1)).mpr (by decide), (hC 1 17).mpr (by decide), (hB 0).mpr (by decide),
    (hB 17).mpr (by decide), ?_, ?_⟩
  · exact Bool.eq_false_iff.mpr fun h => absurd ((hC 1 0).mp h) (by decide)
  · exact Bool.eq_false_iff.mpr fun h => absurd ((hC 32 16).mp h) (by decide)
  · exact Bool.eq_false_iff.mpr fun h => absurd ((hB 1).mp h) (by decide)
  · exact Bool.eq_false_iff.mpr fun h => absurd ((hB 16).mp h) (by decide)

/-- C7: whatever order the table is visited in and whatever the state of the
queues, `MainLevel`, `BusLevel` with a bus in `[1,16]` and `ChannelLevel` with a
bus in `[0,16]` and a channel in `[1,32]` fail with an unknown-step error exactly
when the level is outside `[1,7]`; in that case the process stops with that
error and the bridge untouched, so no decibel string is queued for such a step. -/
theorem unknown_step_iff (x : XAir) (channel bus busB level : Int)
    (order : List (Int × String)) (hperm : order.Perm levels)
    (hB1 : 1 ≤ busB) (hB16 : busB ≤ 16)
    (hb0 : 0 ≤ bus) (hb16 : bus ≤ 16) (hc1 : 1 ≤ channel) (hc32 : channel ≤ 32) :
    ((MainLevel x level order).unknownStep = true ↔ (level < 1 ∨ 7 < level)) ∧
      ((BusLevel x busB level order).unknownStep = true ↔ (level < 1 ∨ 7 < level)) ∧
      ((ChannelLevel x channel bus level order).unknownStep = true
        ↔ (level < 1 ∨ 7 < level)) ∧
      ((level < 1 ∨ 7 < level) →
        MainLevel x level order = .fatal (.unknownLevelStep level) x ∧
        BusLevel x busB level order = .fatal (.unknownLevelStep level) x ∧
        ChannelLevel x channel bus level order = .fatal (.unknownLevelStep level) x) := by
  have hM : MainLevel x level order = MainLevel.loop x level order := rfl
  have hBu : BusLevel x busB level order = BusLevel.loop x busB level order := by
    unfold BusLevel
    rw [if_neg (by omega)]
  have hCh : ChannelLevel x channel bus level order
      = ChannelLevel.loop x channel bus level order := by
    unfold ChannelLevel
    rw [if_neg (by omega), if_neg (by omega)]
  rw [hM, hBu, hCh, MainLevel_loop_eq, BusLevel_loop_eq, ChannelLevel_loop_eq,
    mapGet_perm order hperm]
  by_cases hl : level < 1 ∨ 7 < level
  · rw [dbString_none level hl]
    simp only [Outcome.unknownStep, Fatal.isUnknownStep, hl, true_iff, and_self, imp_self]
  · obtain ⟨db, hdb⟩ := dbString_of_mem level (by omega) (by omega)
    rw [hdb]
    simp only [hl, iff_false, false_imp_iff, and_true, Bool.not_eq_true]
    refine ⟨queueSysExMessage_unknownStep _ _, queueSysExMessage_unknownStep _ _, ?_⟩
    split <;> exact queueSysExMessage_unknownStep _ _

/-- Instances of C7 on the sample bridge: level 0, level 8 and level -3 end in the
unknown-step error with nothing queued, level 7 does not. -/
theorem unknown_step_iff_witness :
    MainLevel sampleBridge 0 levels = .fatal (.unknownLevelStep 0) sampleBridge ∧
      BusLevel sampleBridge 16 8 levels = .fatal (.unknownLevelStep 8) sampleBridge ∧
      ChannelLevel sampleBridge 32 0 (-3) levels
        = .fatal (.unknownLevelStep (-3)) sampleBridge ∧
      (MainLevel sampleBridge 7 levels).unknownStep = false := by
  have h0 := unknown_step_iff sampleBridge 32 0 16 0 levels (List.Perm.refl _)
    (by decide) (by decide) (by decide) (by decide) (by decide) (by decide)
  have h8 := unknown_step_iff sampleBridge 32 0 16 8 levels (List.Perm.refl _)
    (by decide) (by decide) (by decide) (by decide) (by decide) (by decide)
  have hn := unknown_step_iff sampleBridge 32 0 16 (-3) levels (List.Perm.refl _)
    (by decide) (by decide) (by decide) (by decide) (by decide) (by decide)
  have h7 := unknown_step_iff sampleBridge 32 0 16 7 levels (List.Perm.refl _)
    (by decide) (by decide) (by decide) (by decide) (by decide) (by decide)
  refine ⟨(h0.2.2.2 (by decide)).1, (h8.2.2.2 (by decide)).2.1,
    (hn.2.2.2 (by decide)).2.2, ?_⟩
  exact Bool.eq_false_iff.mpr fun h => absurd (h7.1.mp h) (by decide)

/-! ## MIDI commands -/

/-- C8 (evaluation of the code): on a bridge whose MIDI queue is empty with room,
`ChannelMute(0, true)` and `ChannelMute(4, false)` both queue the zero message
`{status 0, data1 0, data2 0}`, not the Control-Change messages that the two
`buildMidiShort` calls of the function build (note 31 value 127, note 3 value 0). -/
theorem ChannelMute_queues_zero_message :
    ChannelMute sampleBridge 0 true
        = .done (sampleBridge.pushMidi ⟨1024, []⟩ { status := 0, data1 := 0, data2 := 0 }) ∧
      ChannelMute sampleBridge 4 false
        = .done (sampleBridge.pushMidi ⟨1024, []⟩ { status := 0, data1 := 0, data2 := 0 }) ∧
      buildMidiShort MIDI_CONTROL_CHANGE XAIR_MIDI_MUTE_CHANNEL 31 127
        = { status := 0xB1, data1 := 31, data2 := 127 } ∧
      buildMidiShort MIDI_CONTROL_CHANGE XAIR_MIDI_MUTE_CHANNEL (sub64 4 1) 0
        = { status := 0xB1, data1 := 3, data2 := 0 } := by
  decide

/-- C9: with room in the MIDI queue, `TriggerMidiDump` adds exactly one message
at the tail of the MIDI queue, the same for every bridge:
`buildMidiShort(ControlChange, 1, 127, 127)`, whose bytes are `B0 7F 7F`. -/
theorem TriggerMidiDump_fixed (x : XAir) (q : Chan MidiShort) (hq : x.midiRoom q) :
    TriggerMidiDump x = .done (x.pushMidi q (buildMidiShort MIDI_CONTROL_CHANGE 1 127 127)) ∧
      buildMidiShort MIDI_CONTROL_CHANGE 1 127 127
        = { status := 0xB0, data1 := 0x7F, data2 := 0x7F } := by
  refine ⟨?_, by decide⟩
  unfold TriggerMidiDump
  exact queueMidiMessage_room x q _ hq

/-- Instance of C9 on the sample bridge. -/
theorem TriggerMidiDump_fixed_witness :
    TriggerMidiDump sampleBridge
      = .done (sampleBridge.pushMidi ⟨1024, []⟩
          { status := 0xB0, data1 := 0x7F, data2 := 0x7F }) := by
  have h := TriggerMidiDump_fixed sampleBridge ⟨1024, []⟩ ⟨rfl, by decide⟩
  rw [h.1, h.2]

/-! ## Dispatch queues -/

/-- C10: for `queueMidiMessage` and `queueSysExMessage` and every message: when the
queue holds fewer messages than its capacity the call returns, the message is at
the tail of the queue, the length has grown by one and the capacity, the other
queue and the streams are as before; when the queue is full (it is the nil
channel, or its capacity is positive and it holds that many messages) the process
stops at once with the saturation error of that queue and the bridge, hence the
queue contents, is unchanged.  A channel of capacity 0 is left out of the second
half: there a send is taken exactly when the writer loop is parked on it. -/
theorem enqueue_bounded (x : XAir) (m : MidiShort) (s : List UInt8) :
    (qlen x.midiQueue < qcap x.midiQueue →
      ∃ y, queueMidiMessage x m = .done y ∧
        contents y.midiQueue = contents x.midiQueue ++ [m] ∧
        qlen y.midiQueue = qlen x.midiQueue + 1 ∧
        qcap y.midiQueue = qcap x.midiQueue ∧
        y.sysExQueue = x.sysExQueue ∧
        y.inputStream = x.inputStream ∧ y.outputStream = x.outputStream) ∧
    ((x.midiQueue = none ∨ 0 < qcap x.midiQueue) →
      ¬ qlen x.midiQueue < qcap x.midiQueue →
      queueMidiMessage x m = .fatal .midiQueueFull x) ∧
    (qlen x.sysExQueue < qcap x.sysExQueue →
      ∃ y, queueSysExMessage x s = .done y ∧
        contents y.sysExQueue = contents x.sysExQueue ++ [s] ∧
        qlen y.sysExQueue = qlen x.sysExQueue + 1 ∧
        qcap y.sysExQueue = qcap x.sysExQueue ∧
        y.midiQueue = x.midiQueue ∧
        y.inputStream = x.inputStream ∧ y.outputStream = x.outputStream) ∧
    ((x.sysExQueue = none ∨ 0 < qcap x.sysExQueue) →
      ¬ qlen x.sysExQueue < qcap x.sysExQueue →
      queueSysExMessage x s = .fatal .sysExQueueFull x) := by
  refine ⟨?_, ?_, ?_, ?_⟩
  · intro h
    cases hq : x.midiQueue with
    | none => simp [hq, qlen, qcap] at h
    | some c =>
      simp only [hq, qlen, qcap] at h
      refine ⟨x.pushMidi c m, queueMidiMessage_room x c m ⟨hq, h⟩, ?_⟩
      simp [XAir.pushMidi, contents, qlen, qcap]
  · intro _ h
    cases hq : x.midiQueue with
    | none => simp [queueMidiMessage, trySend, hq]
    | some c =>
      simp only [hq, qlen, qcap] at h
      simp [queueMidiMessage, trySend, hq, h]
  · intro h
    cases hq : x.sysExQueue with
    | none => simp [hq, qlen, qcap] at h
    | some c =>
      simp only [hq, qlen, qcap] at h
      refine ⟨x.pushSysEx c s, queueSysExMessage_room x c s ⟨hq, h⟩, ?_⟩
      simp [XAir.pushSysEx, contents, qlen, qcap]
  · intro _ h
    cases hq : x.sysExQueue with
    | none => simp [queueSysExMessage, trySend, hq]
    | some c =>
      simp only [hq, qlen, qcap] at h
      simp [queueSysExMessage, trySend, hq, h]

/-- Instances of C10: on a MIDI queue of capacity 2 holding one message the new
message goes behind it; on a SysEx queue of capacity 1 holding one message the
call stops with the saturation error and the bridge is unchanged; on the nil
MIDI queue the call stops with the saturation error as well. -/
theorem enqueue_bounded_witness :
    (∃ y, queueMidiMessage
        { sampleBridge with midiQueue := some ⟨2, [⟨0xB0, 0x7F, 0x7F⟩]⟩ } ⟨0xB1, 31, 127⟩
          = .done y ∧
        contents y.midiQueue = [⟨0xB0, 0x7F, 0x7F⟩, ⟨0xB1, 31, 127⟩]) ∧
    queueSysExMessage { sampleBridge with sysExQueue := some ⟨1, [[47]]⟩ } [47, 98]
      = .fatal .sysExQueueFull { sampleBridge with sysExQueue := some ⟨1, [[47]]⟩ } ∧
    queueMidiMessage { sampleBridge with midiQueue := none } ⟨0xB1, 31, 127⟩
      = .fatal .midiQueueFull { sampleBridge with midiQueue := none } := by
  refine ⟨?_, ?_, ?_⟩
  · obtain ⟨y, hy, hc, -⟩ := (enqueue_bounded
      { sampleBridge with midiQueue := some ⟨2, [⟨0xB0, 0x7F, 0x7F⟩]⟩ } ⟨0xB1, 31, 127⟩ []).1
      (by decide)
    exact ⟨y, hy, hc⟩
  · exact (enqueue_bounded { sampleBridge with sysExQueue := some ⟨1, [[47]]⟩ }
      ⟨0, 0, 0⟩ [47, 98]).2.2.2 (Or.inr (by decide)) (by decide)
  · exact (enqueue_bounded { sampleBridge with midiQueue := none }
      ⟨0xB1, 31, 127⟩ []).2.1 (Or.inl rfl) (by decide)

/-! ## Enqueue: the two outcomes -/

theorem queueSysExMessage_cases (x : XAir) (m : List UInt8) :
    (∃ q, x.sysExRoom q ∧ queueSysExMessage x m = .done (x.pushSysEx q m)) ∨
      (¬ qlen x.sysExQueue < qcap x.sysExQueue ∧
        queueSysExMessage x m = .fatal .sysExQueueFull x) := by
  cases hq : x.sysExQueue with
  | none =>
    right
    simp [queueSysExMessage, trySend, hq, qlen, qcap]
  | some c =>
    by_cases h : c.buf.length < c.cap
    · left
      exact ⟨c, ⟨hq, h⟩, queueSysExMessage_room x c m ⟨hq, h⟩⟩
    · right
      simp [queueSysExMessage, trySend, hq, qlen, qcap, h]

theorem queueMidiMessage_cases (x : XAir) (m : MidiShort) :
    (∃ q, x.midiRoom q ∧ queueMidiMessage x m = .done (x.pushMidi q m)) ∨
      (¬ qlen x.midiQueue < qcap x.midiQueue ∧
        queueMidiMessage x m = .fatal .midiQueueFull x) := by
  cases hq : x.midiQueue with
  | none =>
    right
    simp [queueMidiMessage, trySend, hq, qlen, qcap]
  | some c =>
    by_cases h : c.buf.length < c.cap
    · left
      exact ⟨c, ⟨hq, h⟩, queueMidiMessage_room x c m ⟨hq, h⟩⟩
    · right
      simp [queueMidiMessage, trySend, hq, qlen, qcap, h]

/-- A level command is an error or one payload, fixed by its arguments and the
visiting order, not by the bridge. -/
theorem ChannelLevel_act (channel bus level : Int) (order : List (Int × String)) :
    ∃ r, ∀ x, ChannelLevel x channel bus level order = act r x := by
  unfold ChannelLevel
  by_cases hb : bus < 0 ∨ bus > 16
  · exact ⟨.inl (.busOutOfRange bus "0(main) and 1-16"), fun x => by rw [if_pos hb]; rfl⟩
  · by_cases hc : channel < 1 ∨ channel > 32
    · exact ⟨.inl (.channelOutOfRange channel), fun x => by rw [if_neg hb, if_pos hc]; rfl⟩
    · cases hm : mapGet order level with
      | none =>
        exact ⟨.inl (.unknownLevelStep level), fun x => by
          rw [if_neg hb, if_neg hc, ChannelLevel_loop_eq, hm]; rfl⟩
      | some v =>
        by_cases h0 : bus = BUS_MAIN
        · exact ⟨.inr (bytes ("/ch/" ++ fmtD02 channel ++ "/mix/fader " ++ v)), fun x => by
            rw [if_neg hb, if_neg hc, ChannelLevel_loop_eq, hm]
            simp only [if_pos h0]; rfl⟩
        · exact ⟨.inr (bytes ("/ch/" ++ fmtD02 channel ++ "/mix/" ++ fmtD02 bus ++ "/level " ++ v)),
            fun x => by
              rw [if_neg hb, if_neg hc, ChannelLevel_loop_eq, hm]
              simp only [if_neg h0]; rfl⟩

theorem MainLevel_act (level : Int) (order : List (Int × String)) :
    ∃ r, ∀ x, MainLevel x level order = act r x := by
  unfold MainLevel
  cases hm : mapGet order level with
  | none => exact ⟨.inl (.unknownLevelStep level), fun x => by rw [MainLevel_loop_eq, hm]; rfl⟩
  | some v =>
    exact ⟨.inr (bytes ("/main/st/mix/fader " ++ v)), fun x => by
      rw [MainLevel_loop_eq, hm]; rfl⟩

theorem BusLevel_act (bus level : Int) (order : List (Int × String)) :
    ∃ r, ∀ x, BusLevel x bus level order = act r x := by
  unfold BusLevel
  by_cases hb : bus < 1 ∨ bus > 16
  · exact ⟨.inl (.busOutOfRange bus "1-16"), fun x => by rw [if_pos hb]; rfl⟩
  · cases hm : mapGet order level with
    | none =>
      exact ⟨.inl (.unknownLevelStep level), fun x => by
        rw [if_neg hb, BusLevel_loop_eq, hm]; rfl⟩
    | some v =>
      exact ⟨.inr (bytes ("/bus/" ++ fmtD02 bus ++ "/mix/fader " ++ v)), fun x => by
        rw [if_neg hb, BusLevel_loop_eq, hm]; rfl⟩

/-- Frame of `act`: the MIDI queue and the streams are untouched, a failure leaves
the whole bridge as it was, a success adds one payload to the SysEx queue. -/
theorem act_frame (r : Fatal ⊕ List UInt8) (x : XAir) :
    (act r x).bridge.midiQueue = x.midiQueue ∧
      (act r x).bridge.inputStream = x.inputStream ∧
      (act r x).bridge.outputStream = x.outputStream ∧
      (∀ e y, act r x = .fatal e y → y = x) ∧
      (∀ y, act r x = .done y →
        ∃ p, contents y.sysExQueue = contents x.sysExQueue ++ [p] ∧
          qlen y.sysExQueue = qlen x.sysExQueue + 1) := by
  cases r with
  | inl e =>
    refine ⟨rfl, rfl, rfl, ?_, ?_⟩
    · intro e' y h
      simp only [act, Outcome.fatal.injEq] at h
      exact h.2.symm
    · intro y h
      simp [act] at h
  | inr m =>
    simp only [act]
    rcases queueSysExMessage_cases x m with ⟨q, hq, h⟩ | ⟨_, h⟩
    · rw [h]
      refine ⟨rfl, rfl, rfl, ?_, ?_⟩
      · intro e y hy
        simp at hy
      · intro y hy
        simp only [Outcome.done.injEq] at hy
        subst hy
        exact ⟨m, by simp [XAir.pushSysEx, contents, hq.1], by
          simp [XAir.pushSysEx, qlen, hq.1]⟩
    · rw [h]
      refine ⟨rfl, rfl, rfl, ?_, ?_⟩
      · intro e y hy
        simp only [Outcome.fatal.injEq] at hy
        exact hy.2.symm
      · intro y hy
        simp at hy

/-- Whether `act` fails, and with which error, does not depend on the MIDI queue. -/
theorem act_error_midi (r : Fatal ⊕ List UInt8) (x : XAir) (q : Option (Chan MidiShort)) :
    (act r { x with midiQueue := q }).error = (act r x).error := by
  cases r with
  | inl e => rfl
  | inr m =>
    simp only [act, queueSysExMessage]
    cases trySend x.sysExQueue m <;> rfl

/-! ## The bridge built by `Open` -/

theorem Open_ok_queues (devices : List DeviceInfo)
    (newInputStream newOutputStream : Int → Except String Stream) (deviceName : String)
    (x : XAir) (h : Open devices newInputStream newOutputStream deviceName = .ok x) :
    x.midiQueue = none ∧ x.sysExQueue = none := by
  unfold Open at h
  split at h
  · cases h
  · split at h
    · cases h
    · split at h
      · cases h
      · cases h
        exact ⟨rfl, rfl⟩

/-- C11 (evaluation of the code): every bridge that `Open` returns has the nil
channel for both queues, so `len = cap = 0`, and the first command on it stops
with the saturation error: `MainLevel(5)` with "sysex outbound queue is full",
`TriggerMidiDump()` with "midi outbound queue is full".  The concrete case is one
device `X18` with input and output and both streams opening. -/
theorem Open_first_command_fails :
    (∀ devices newInputStream newOutputStream deviceName x,
      Open devices newInputStream newOutputStream deviceName = .ok x →
        x.midiQueue = none ∧ x.sysExQueue = none ∧
        MainLevel x 5 levels = .fatal .sysExQueueFull x ∧
        TriggerMidiDump x = .fatal .midiQueueFull x) ∧
    Open [⟨"X18", true, true⟩] (fun d => .ok ⟨d, []⟩) (fun d => .ok ⟨d, []⟩) "X18"
      = .ok ⟨⟨0, []⟩, ⟨0, []⟩, none, none⟩ ∧
    MainLevel ⟨⟨0, []⟩, ⟨0, []⟩, none, none⟩ 5 levels
      = .fatal .sysExQueueFull ⟨⟨0, []⟩, ⟨0, []⟩, none, none⟩ ∧
    TriggerMidiDump ⟨⟨0, []⟩, ⟨0, []⟩, none, none⟩
      = .fatal .midiQueueFull ⟨⟨0, []⟩, ⟨0, []⟩, none, none⟩ := by
  refine ⟨?_, rfl, by decide, by decide⟩
  intro devices newInputStream newOutputStream deviceName x h
  obtain ⟨hm, hs⟩ := Open_ok_queues devices newInputStream newOutputStream deviceName x h
  refine ⟨hm, hs, ?_, ?_⟩
  · have h5 : dbString 5 = some "0" := by decide
    unfold MainLevel
    rw [MainLevel_loop_eq, mapGet_levels, h5]
    simp [queueSysExMessage, trySend, hs]
  · simp [TriggerMidiDump, queueMidiMessage, trySend, hm]

/-! ## `ChannelMute` -/

/-- C13: for every bridge, channel and mute flag, `ChannelMute` hands
`queueMidiMessage` the zero message `{status 0, data1 0, data2 0}`: the results of
both `buildMidiShort` calls are dropped, so the outcome is the same for every
channel and flag, and with room in the MIDI queue it is that zero message which
ends up at the tail. -/
theorem ChannelMute_zero_message (x : XAir) (channel channel' : Int) (mute mute' : Bool) :
    ChannelMute x channel mute
        = queueMidiMessage x { status := 0, data1 := 0, data2 := 0 } ∧
      ChannelMute x channel mute = ChannelMute x channel' mute' ∧
      (∀ q, x.midiRoom q →
        ChannelMute x channel mute
          = .done (x.pushMidi q { status := 0, data1 := 0, data2 := 0 })) := by
  refine ⟨rfl, rfl, ?_⟩
  intro q hq
  exact queueMidiMessage_room x q _ hq

/-- Instance of C13: channels 0 and 7, muted and unmuted, queue the same zero
message on the sample bridge. -/
theorem ChannelMute_zero_message_witness :
    ChannelMute sampleBridge 0 true
        = .done (sampleBridge.pushMidi ⟨1024, []⟩ { status := 0, data1 := 0, data2 := 0 }) ∧
      ChannelMute sampleBridge 0 true = ChannelMute sampleBridge 7 false :=
  ⟨(ChannelMute_zero_message sampleBridge 0 7 true false).2.2 ⟨1024, []⟩ ⟨rfl, by decide⟩,
    (ChannelMute_zero_message sampleBridge 0 7 true false).2.1⟩

/-- C14: `ChannelMute` checks no range: for every integer channel and every mute
flag it never fails with a range error; with room in the MIDI queue it returns
and exactly one message has been added at the tail of the MIDI queue; and when it
fails, the error is the saturation of the MIDI queue. -/
theorem ChannelMute_no_range_check (x : XAir) (q : Chan MidiShort) (channel : Int)
    (mute : Bool) (hq : x.midiRoom q) :
    (∃ m, ChannelMute x channel mute = .done (x.pushMidi q m)) ∧
      (∀ z : XAir, (ChannelMute z channel mute).rangeError = false) ∧
      (∀ (z : XAir) (e : Fatal) (y : XAir),
        ChannelMute z channel mute = .fatal e y → e = .midiQueueFull) := by
  refine ⟨⟨_, queueMidiMessage_room x q _ hq⟩, ?_, ?_⟩
  · intro z
    show (queueMidiMessage z _).rangeError = false
    rcases queueMidiMessage_cases z { status := 0, data1 := 0, data2 := 0 }
      with ⟨c, _, h⟩ | ⟨_, h⟩ <;> rw [h] <;> rfl
  · intro z e y h
    have h' : queueMidiMessage z { status := 0, data1 := 0, data2 := 0 } = .fatal e y := h
    rcases queueMidiMessage_cases z { status := 0, data1 := 0, data2 := 0 }
      with ⟨c, _, hc⟩ | ⟨_, hc⟩
    · rw [hc] at h'
      cases h'
    · rw [hc] at h'
      cases h'
      rfl

/-- Instances of C14: channels -7 and 40 are accepted on the sample bridge, and on
a bridge whose MIDI queue is full the failure is the saturation error. -/
theorem ChannelMute_no_range_check_witness :
    (∃ m, ChannelMute sampleBridge (-7) true = .done (sampleBridge.pushMidi ⟨1024, []⟩ m)) ∧
      (∃ m, ChannelMute sampleBridge 40 false
        = .done (sampleBridge.pushMidi ⟨1024, []⟩ m)) ∧
      ChannelMute { sampleBridge with midiQueue := some ⟨0, []⟩ } 40 false
        = .fatal .midiQueueFull { sampleBridge with midiQueue := some ⟨0, []⟩ } :=
  ⟨(ChannelMute_no_range_check sampleBridge ⟨1024, []⟩ (-7) true ⟨rfl, by decide⟩).1,
    (ChannelMute_no_range_check sampleBridge ⟨1024, []⟩ 40 false ⟨rfl, by decide⟩).1,
    by decide⟩

/-! ## Frame and order of the checks -/

theorem queueMidiMessage_keeps (x : XAir) (m : MidiShort) :
    KeepsSysExSide x (queueMidiMessage x m) := by
  rcases queueMidiMessage_cases x m with ⟨q, _, h⟩ | ⟨_, h⟩ <;> rw [h] <;> exact ⟨rfl, rfl, rfl⟩

theorem queueMidiMessage_error_sysEx (x : XAir) (m : MidiShort)
    (q : Option (Chan (List UInt8))) :
    (queueMidiMessage { x with sysExQueue := q } m).error = (queueMidiMessage x m).error := by
  simp only [queueMidiMessage]
  cases trySend x.midiQueue m <;> rfl

/-- C15: the two queues are independent.  `ChannelLevel`, `MainLevel` and
`BusLevel`, returning or failing, leave the MIDI queue and both streams as they
were, and whether they fail (and how) is the same whatever MIDI queue `qm` the
bridge has; `ChannelMute` and `TriggerMidiDump` leave the SysEx queue and both
streams as they were, and whether they fail is the same whatever SysEx queue `qs`
the bridge has. -/
theorem queues_independent (x : XAir) (channel bus level : Int) (mute : Bool)
    (order : List (Int × String)) (qm : Option (Chan MidiShort))
    (qs : Option (Chan (List UInt8))) :
    (KeepsMidiSide x (ChannelLevel x channel bus level order) ∧
      KeepsMidiSide x (MainLevel x level order) ∧
      KeepsMidiSide x (BusLevel x bus level order)) ∧
    (KeepsSysExSide x (ChannelMute x channel mute) ∧
      KeepsSysExSide x (TriggerMidiDump x)) ∧
    ((ChannelLevel { x with midiQueue := qm } channel bus level order).error
        = (ChannelLevel x channel bus level order).error ∧
      (MainLevel { x with midiQueue := qm } level order).error
        = (MainLevel x level order).error ∧
      (BusLevel { x with midiQueue := qm } bus level order).error
        = (BusLevel x bus level order).error) ∧
    ((ChannelMute { x with sysExQueue := qs } channel mute).error
        = (ChannelMute x channel mute).error ∧
      (TriggerMidiDump { x with sysExQueue := qs }).error = (TriggerMidiDump x).error) := by
  obtain ⟨rc, hc⟩ := ChannelLevel_act channel bus level order
  obtain ⟨rm, hm⟩ := MainLevel_act level order
  obtain ⟨rb, hb⟩ := BusLevel_act bus level order
  refine ⟨⟨?_, ?_, ?_⟩, ⟨?_, ?_⟩, ⟨?_, ?_, ?_⟩, ⟨?_, ?_⟩⟩
  · rw [hc]; exact ⟨(act_frame rc x).1, (act_frame rc x).2.1, (act_frame rc x).2.2.1⟩
  · rw [hm]; exact ⟨(act_frame rm x).1, (act_frame rm x).2.1, (act_frame rm x).2.2.1⟩
  · rw [hb]; exact ⟨(act_frame rb x).1, (act_frame rb x).2.1, (act_frame rb x).2.2.1⟩
  · exact queueMidiMessage_keeps x _
  · exact queueMidiMessage_keeps x _
  · rw [hc, hc]; exact act_error_midi rc x qm
  · rw [hm, hm]; exact act_error_midi rm x qm
  · rw [hb, hb]; exact act_error_midi rb x qm
  · exact queueMidiMessage_error_sysEx x _ qs
  · exact queueMidiMessage_error_sysEx x _ qs

/-- Instances of C15: with the MIDI queue full, `MainLevel(5)` still returns and
the MIDI queue is as it was; with the SysEx queue full, `TriggerMidiDump` still
returns. -/
theorem queues_independent_witness :
    (MainLevel { sampleBridge with midiQueue := some ⟨0, []⟩ } 5 levels).error = none ∧
      (MainLevel { sampleBridge with midiQueue := some ⟨0, []⟩ } 5 levels).bridge.midiQueue
        = some ⟨0, []⟩ ∧
      (TriggerMidiDump { sampleBridge with sysExQueue := some ⟨0, []⟩ }).error = none := by
  have h := queues_independent sampleBridge 1 1 5 true levels (some ⟨0, []⟩) (some ⟨0, []⟩)
  have k := queues_independent { sampleBridge with midiQueue := some ⟨0, []⟩ } 1 1 5 true
    levels none none
  refine ⟨?_, k.1.2.1.1, ?_⟩
  · rw [h.2.2.1.2.1]; decide
  · rw [h.2.2.2.2]; decide

/-- C17: the checks run in a fixed order.  In `ChannelLevel` a bus outside `[0,16]`
gives the bus range error whatever the channel and the level; otherwise a channel
outside `[1,32]` gives the channel range error whatever the level; the
unknown-step error needs both in range.  In `BusLevel` a bus outside `[1,16]`
gives the bus range error whatever the level.  So `ChannelLevel(0,17,9)` is the
bus error, `ChannelLevel(0,3,9)` the channel error, `BusLevel(0,9)` the bus error. -/
theorem validation_order (x : XAir) (channel bus level : Int) (order : List (Int × String)) :
    ((bus < 0 ∨ bus > 16) →
      ChannelLevel x channel bus level order
        = .fatal (.busOutOfRange bus "0(main) and 1-16") x) ∧
    (¬ (bus < 0 ∨ bus > 16) → (channel < 1 ∨ channel > 32) →
      ChannelLevel x channel bus level order = .fatal (.channelOutOfRange channel) x) ∧
    ((ChannelLevel x channel bus level order).unknownStep = true →
      (0 ≤ bus ∧ bus ≤ 16) ∧ (1 ≤ channel ∧ channel ≤ 32)) ∧
    ((bus < 1 ∨ bus > 16) →
      BusLevel x bus level order = .fatal (.busOutOfRange bus "1-16") x) ∧
    ((BusLevel x bus level order).unknownStep = true → 1 ≤ bus ∧ bus ≤ 16) ∧
    ChannelLevel x 0 17 9 order = .fatal (.busOutOfRange 17 "0(main) and 1-16") x ∧
    ChannelLevel x 0 3 9 order = .fatal (.channelOutOfRange 0) x ∧
    BusLevel x 0 9 order = .fatal (.busOutOfRange 0 "1-16") x := by
  refine ⟨?_, ?_, ?_, ?_, ?_, ?_, ?_, ?_⟩
  · intro hb
    unfold ChannelLevel
    rw [if_pos hb]
  · intro hb hc
    unfold ChannelLevel
    rw [if_neg hb, if_pos hc]
  · intro h
    unfold ChannelLevel at h
    by_cases hb : bus < 0 ∨ bus > 16
    · rw [if_pos hb] at h
      simp [Outcome.unknownStep, Fatal.isUnknownStep] at h
    · rw [if_neg hb] at h
      by_cases hc : channel < 1 ∨ channel > 32
      · rw [if_pos hc] at h
        simp [Outcome.unknownStep, Fatal.isUnknownStep] at h
      · omega
  · intro hb
    unfold BusLevel
    rw [if_pos hb]
  · intro h
    unfold BusLevel at h
    by_cases hb : bus < 1 ∨ bus > 16
    · rw [if_pos hb] at h
      simp [Outcome.unknownStep, Fatal.isUnknownStep] at h
    · omega
  · unfold ChannelLevel
    rw [if_pos (by decide)]
  · unfold ChannelLevel
    rw [if_neg (by decide), if_pos (by decide)]
  · unfold BusLevel
    rw [if_pos (by decide)]

/-- Instances of C17 on the sample bridge, with the unknown-step error reached
once bus and channel are in range. -/
theorem validation_order_witness :
    ChannelLevel sampleBridge 0 17 9 levels
        = .fatal (.busOutOfRange 17 "0(main) and 1-16") sampleBridge ∧
      ChannelLevel sampleBridge 0 3 9 levels = .fatal (.channelOutOfRange 0) sampleBridge ∧
      BusLevel sampleBridge 0 9 levels = .fatal (.busOutOfRange 0 "1-16") sampleBridge ∧
      ChannelLevel sampleBridge 1 3 9 levels = .fatal (.unknownLevelStep 9) sampleBridge :=
  ⟨(validation_order sampleBridge 0 17 9 levels).1 (by decide),
    (validation_order sampleBridge 0 3 9 levels).2.1 (by decide) (by decide),
    (validation_order sampleBridge 0 0 9 levels).2.2.2.1 (by decide),
    by decide⟩

theorem act_allOrNothing (r : Fatal ⊕ List UInt8) (x : XAir) : AllOrNothing x (act r x) := by
  obtain ⟨hmq, _, _, hf, hd⟩ := act_frame r x
  refine ⟨hf, ?_⟩
  intro y hy
  obtain ⟨p, hp, hl⟩ := hd y hy
  refine ⟨⟨p, hp⟩, hl, ?_⟩
  rw [hy] at hmq
  exact hmq

/-- C18: the level commands are all or nothing, for every bridge, arguments and
visiting order: when `ChannelLevel`, `MainLevel` or `BusLevel` fails (range
error, unknown step, or saturation) the bridge, hence both queues, is exactly as
before the call; when it returns, the SysEx queue holds exactly one more payload
(at its tail) and the MIDI queue is as before. -/
theorem level_all_or_nothing (x : XAir) (channel bus level : Int)
    (order : List (Int × String)) :
    AllOrNothing x (ChannelLevel x channel bus level order) ∧
      AllOrNothing x (MainLevel x level order) ∧
      AllOrNothing x (BusLevel x bus level order) := by
  obtain ⟨rc, hc⟩ := ChannelLevel_act channel bus level order
  obtain ⟨rm, hm⟩ := MainLevel_act level order
  obtain ⟨rb, hb⟩ := BusLevel_act bus level order
  rw [hc, hm, hb]
  exact ⟨act_allOrNothing rc x, act_allOrNothing rm x, act_allOrNothing rb x⟩

/-- Instances of C18 on a bridge that already holds one payload: a failing
`BusLevel(17,7)` and a failing `MainLevel(8)` leave it as it was, a successful
`MainLevel(5)` leaves two payloads. -/
theorem level_all_or_nothing_witness :
    (BusLevel (sampleBridge.pushSysEx ⟨1024, []⟩ [47]) 17 7 levels).bridge
        = sampleBridge.pushSysEx ⟨1024, []⟩ [47] ∧
      (MainLevel (sampleBridge.pushSysEx ⟨1024, []⟩ [47]) 8 levels).bridge
        = sampleBridge.pushSysEx ⟨1024, []⟩ [47] ∧
      qlen (MainLevel (sampleBridge.pushSysEx ⟨1024, []⟩ [47]) 5 levels).bridge.sysExQueue
        = 2 := by
  have h := level_all_or_nothing (sampleBridge.pushSysEx ⟨1024, []⟩ [47]) 1 17 7 levels
  have k := level_all_or_nothing (sampleBridge.pushSysEx ⟨1024, []⟩ [47]) 1 1 8 levels
  have l := level_all_or_nothing (sampleBridge.pushSysEx ⟨1024, []⟩ [47]) 1 1 5 levels
  refine ⟨?_, ?_, ?_⟩
  · exact h.2.2.1 (.busOutOfRange 17 "1-16") _ (by decide)
  · exact k.2.1.1 (.unknownLevelStep 8) _ (by decide)
  · exact (l.2.1.2 _ (by decide)).2.1

/-! ## The status byte -/

theorem ofBits_small (n : Nat) (h : n < 2 ^ 63) : ofBits n = n := by
  unfold ofBits
  split <;> omega

theorem and_15_eq_mod (n : Nat) : n &&& 15 = n % 16 := by
  have h := Nat.and_pow_two_sub_one_eq_mod n 4
  norm_num at h
  exact h

theorem status_bits_lt (a b : Nat) : (a &&& 240) ||| (b &&& 15) < 256 := by
  have ha : a &&& 240 < 2 ^ 8 := Nat.and_lt_two_pow a (by decide)
  have hb : b &&& 15 < 2 ^ 8 := Nat.and_lt_two_pow b (by decide)
  exact Nat.or_lt_two_pow ha hb

/-- The status as a natural number below 256. -/
theorem status_eq (cmd channel note value : Int) :
    (buildMidiShort cmd channel note value).status
      = (((toBits (shl64 cmd 4) &&& 240) ||| (toBits (sub64 channel 1) &&& 15) : Nat) : Int) := by
  have h : (buildMidiShort cmd channel note value).status
      = ofBits ((toBits (shl64 cmd 4) &&& 240) ||| (toBits (sub64 channel 1) &&& 15)) := by
    simp only [buildMidiShort, or64, toBits_and64, toBits_0xF, toBits_0xF0]
  rw [h]
  exact ofBits_small _ (by
    have := status_bits_lt (toBits (shl64 cmd 4)) (toBits (sub64 channel 1))
    omega)

theorem toBits_sub64_mod (channel : Int) :
    toBits (sub64 channel 1) &&& 15 = ((channel - 1) % 16).toNat := by
  unfold sub64
  rw [toBits_ofBits _ (toBits_lt _), and_15_eq_mod]
  unfold toBits
  omega

/-- C20: for every `cmd` and `channel` (negative, zero and out of range included)
the status built by `buildMidiShort` lies in `[0, 255]`; for the four defined
commands it lies in `[0x80, 0xCF]`, whatever the channel; and two channels that
are congruent modulo 16 give the same status. -/
theorem status_is_byte (cmd channel channel' note value : Int) :
    (0 ≤ (buildMidiShort cmd channel note value).status ∧
      (buildMidiShort cmd channel note value).status ≤ 255) ∧
    ((cmd = MIDI_NOTE_OFF ∨ cmd = MIDI_NOTE_ON ∨ cmd = MIDI_CONTROL_CHANGE ∨
        cmd = MIDI_PROGRAM_CHANGE) →
      0x80 ≤ (buildMidiShort cmd channel note value).status ∧
        (buildMidiShort cmd channel note value).status ≤ 0xCF) ∧
    (channel % 16 = channel' % 16 →
      (buildMidiShort cmd channel note value).status
        = (buildMidiShort cmd channel' note value).status) := by
  refine ⟨?_, ?_, ?_⟩
  · rw [status_eq]
    have := status_bits_lt (toBits (shl64 cmd 4)) (toBits (sub64 channel 1))
    omega
  · intro hcmd
    rw [status_eq, and_15_eq_mod]
    have hk : toBits (sub64 channel 1) % 16 < 16 := Nat.mod_lt _ (by decide)
    have key : ∀ k, k < 16 →
        (128 ≤ (128 ||| k) ∧ (128 ||| k) ≤ 207) ∧ (128 ≤ (144 ||| k) ∧ (144 ||| k) ≤ 207) ∧
        (128 ≤ (176 ||| k) ∧ (176 ||| k) ≤ 207) ∧ (128 ≤ (192 ||| k) ∧ (192 ||| k) ≤ 207) := by
      decide
    obtain ⟨k1, k2, k3, k4⟩ := key _ hk
    rcases hcmd with rfl | rfl | rfl | rfl
    · have h : toBits (shl64 MIDI_NOTE_OFF 4) &&& 240 = 128 := by decide
      rw [h]; omega
    · have h : toBits (shl64 MIDI_NOTE_ON 4) &&& 240 = 144 := by decide
      rw [h]; omega
    · have h : toBits (shl64 MIDI_CONTROL_CHANGE 4) &&& 240 = 176 := by decide
      rw [h]; omega
    · have h : toBits (shl64 MIDI_PROGRAM_CHANGE 4) &&& 240 = 192 := by decide
      rw [h]; omega
  · intro hmod
    rw [status_eq, status_eq, toBits_sub64_mod, toBits_sub64_mod]
    have : (channel - 1) % 16 = (channel' - 1) % 16 := by omega
    rw [this]

/-- Instances of C20: a negative command and the smallest 64-bit channel still give
a byte; Program-Change on channel -5 gives `0xCA`; channels 0 and 16, and 1 and 17,
give the same status. -/
theorem status_is_byte_witness :
    (buildMidiShort (-3) (-9223372036854775808) 0 0).status = 223 ∧
      (buildMidiShort MIDI_PROGRAM_CHANGE (-5) 0 0).status = 0xCA ∧
      (buildMidiShort MIDI_NOTE_ON 0 60 1).status = (buildMidiShort MIDI_NOTE_ON 16 60 1).status ∧
      (buildMidiShort MIDI_NOTE_ON 1 60 1).status
        = (buildMidiShort MIDI_NOTE_ON 17 60 1).status :=
  ⟨by decide, by decide,
    (status_is_byte MIDI_NOTE_ON 0 16 60 1).2.2 (by decide),
    (status_is_byte MIDI_NOTE_ON 1 17 60 1).2.2 (by decide)⟩

/-! ## Device discovery -/

theorem discover_loop_eq (name : String) (l : List DeviceInfo) (i inp out : Int) :
    discover.loop name l i inp out
      = (lastMatch (isInputMatch name) l i inp, lastMatch (isOutputMatch name) l i out) := by
  induction l generalizing i inp out with
  | nil => rfl
  | cons info rest ih =>
    by_cases hc : stringsContains info.Name name = true
    · simp [discover.loop, ih, lastMatch, isInputMatch, isOutputMatch, hc]
    · simp [discover.loop, ih, lastMatch, isInputMatch, isOutputMatch, hc]

/-- The loop variable at the end: unchanged when no device still to visit
satisfies `p`, otherwise the index of the last one that does. -/
theorem lastMatch_spec (p : DeviceInfo → Bool) (l : List DeviceInfo) (i acc : Int) :
    (lastMatch p l i acc = acc ∧ ∀ (k : Nat) (d : DeviceInfo), l[k]? = some d → p d = false) ∨
      (∃ (k : Nat) (d : DeviceInfo), l[k]? = some d ∧ lastMatch p l i acc = i + k ∧
        p d = true ∧
        ∀ (j : Nat) (d' : DeviceInfo), k < j → l[j]? = some d' → p d' = false) := by
  induction l generalizing i acc with
  | nil =>
    left
    exact ⟨rfl, fun k d h => by simp at h⟩
  | cons info rest ih =>
    simp only [lastMatch]
    rcases ih (i + 1) (if p info then i else acc) with ⟨hr, hn⟩ | ⟨k, d, hk, hr, hd, hl⟩
    · by_cases hin : p info = true
      · right
        refine ⟨0, info, List.getElem?_cons_zero, ?_, hin, ?_⟩
        · rw [hr, if_pos hin]; simp
        · intro j d' hj hd'
          obtain ⟨j', rfl⟩ : ∃ j', j = j' + 1 := ⟨j - 1, by omega⟩
          rw [List.getElem?_cons_succ] at hd'
          exact hn j' d' hd'
      · left
        refine ⟨by rw [hr, if_neg hin], ?_⟩
        intro k d hk
        cases k with
        | zero =>
          simp only [List.getElem?_cons_zero, Option.some.injEq] at hk
          subst hk
          simpa using hin
        | succ k' =>
          rw [List.getElem?_cons_succ] at hk
          exact hn k' d hk
    · right
      refine ⟨k + 1, d, by rw [List.getElem?_cons_succ]; exact hk, ?_, hd, ?_⟩
      · rw [hr]; push_cast; ring
      · intro j d' hj hd'
        obtain ⟨j', rfl⟩ : ∃ j', j = j' + 1 := ⟨j - 1, by omega⟩
        rw [List.getElem?_cons_succ] at hd'
        exact hl j' d' (by omega) hd'

theorem matchesInput_iff (devices : List DeviceInfo) (name : String) (i : Nat) :
    matchesInput devices name i ↔ ∃ d, devices[i]? = some d ∧ isInputMatch name d = true := by
  simp [matchesInput, isInputMatch, Bool.and_eq_true]

theorem matchesOutput_iff (devices : List DeviceInfo) (name : String) (i : Nat) :
    matchesOutput devices name i ↔ ∃ d, devices[i]? = some d ∧ isOutputMatch name d = true := by
  simp [matchesOutput, isOutputMatch, Bool.and_eq_true]

theorem discover_eq (devices : List DeviceInfo) (name : String) :
    discover devices name =
      if lastMatch (isInputMatch name) devices 0 (-1) = -1 ∨
          lastMatch (isOutputMatch name) devices 0 (-1) = -1 then
        .error "xair: no device is connected"
      else .ok (lastMatch (isInputMatch name) devices 0 (-1),
        lastMatch (isOutputMatch name) devices 0 (-1)) := by
  unfold discover
  rw [discover_loop_eq]

/-- C16: `discover` returns the "no device" error exactly when no device whose
name contains `deviceName` has input available or no such device has output
available (either side missing); otherwise it returns an input handle and an
output handle, the index of the last matching device with input available and
the index of the last matching device with output available.  On a device list as
PortMidi enumerates it, where no entry has both directions, the two handles are
distinct. -/
theorem discover_handles (devices : List DeviceInfo) (deviceName : String) :
    (discover devices deviceName = .error "xair: no device is connected" ↔
      ((¬ ∃ i, matchesInput devices deviceName i) ∨
        (¬ ∃ i, matchesOutput devices deviceName i))) ∧
    ((∃ i, matchesInput devices deviceName i) → (∃ i, matchesOutput devices deviceName i) →
      ∃ a b : Nat, discover devices deviceName = .ok ((a : Int), (b : Int)) ∧
        matchesInput devices deviceName a ∧ matchesOutput devices deviceName b ∧
        (∀ j, a < j → ¬ matchesInput devices deviceName j) ∧
        (∀ j, b < j → ¬ matchesOutput devices deviceName j) ∧
        (OneDirection devices → a ≠ b)) := by
  rw [discover_eq]
  rcases lastMatch_spec (isInputMatch deviceName) devices 0 (-1) with
    ⟨hi, hni⟩ | ⟨a, da, hda, hia, hpa, hla⟩
  · have noIn : ¬ ∃ i, matchesInput devices deviceName i := by
      rintro ⟨i, hm⟩
      obtain ⟨d, hd, hp⟩ := (matchesInput_iff devices deviceName i).mp hm
      rw [hni i d hd] at hp
      exact absurd hp (by decide)
    rw [if_pos (Or.inl hi)]
    exact ⟨⟨fun _ => Or.inl noIn, fun _ => rfl⟩, fun h => absurd h noIn⟩
  · rcases lastMatch_spec (isOutputMatch deviceName) devices 0 (-1) with
      ⟨ho, hno⟩ | ⟨b, db, hdb, hob, hpb, hlb⟩
    · have noOut : ¬ ∃ i, matchesOutput devices deviceName i := by
        rintro ⟨i, hm⟩
        obtain ⟨d, hd, hp⟩ := (matchesOutput_iff devices deviceName i).mp hm
        rw [hno i d hd] at hp
        exact absurd hp (by decide)
      rw [if_pos (Or.inr ho)]
      exact ⟨⟨fun _ => Or.inr noOut, fun _ => rfl⟩, fun _ h => absurd h noOut⟩
    · have hIn : matchesInput devices deviceName a :=
        (matchesInput_iff devices deviceName a).mpr ⟨da, hda, hpa⟩
      have hOut : matchesOutput devices deviceName b :=
        (matchesOutput_iff devices deviceName b).mpr ⟨db, hdb, hpb⟩
      rw [if_neg (by omega), hia, hob]
      simp only [zero_add]
      constructor
      · constructor
        · intro h
          cases h
        · rintro (h | h)
          · exact absurd ⟨a, hIn⟩ h
          · exact absurd ⟨b, hOut⟩ h
      · intro _ _
        refine ⟨a, b, rfl, hIn, hOut, ?_, ?_, ?_⟩
        · intro j hj hm
          obtain ⟨d, hd, hp⟩ := (matchesInput_iff devices deviceName j).mp hm
          rw [hla j d hj hd] at hp
          exact absurd hp (by decide)
        · intro j hj hm
          obtain ⟨d, hd, hp⟩ := (matchesOutput_iff devices deviceName j).mp hm
          rw [hlb j d hj hd] at hp
          exact absurd hp (by decide)
        · intro hex hab
          subst hab
          rw [hda] at hdb
          cases hdb
          have hmem : da ∈ devices := List.getElem?_mem hda
          simp only [isInputMatch, isOutputMatch, Bool.and_eq_true] at hpa hpb
          exact hex da hmem ⟨hpa.2, hpb.2⟩

/-- Instances of C16: PortMidi lists the mixer as an input entry and as an output
entry; with another device in between, `discover("X18")` returns the handles 0 and
2, which are distinct; with only the input entry it returns the error. -/
theorem discover_handles_witness :
    OneDirection [⟨"X18", true, false⟩, ⟨"Other", false, true⟩, ⟨"X18", false, true⟩] ∧
      discover [⟨"X18", true, false⟩, ⟨"Other", false, true⟩, ⟨"X18", false, true⟩] "X18"
        = .ok (0, 2) ∧
      (∃ a b : Nat,
        discover [⟨"X18", true, false⟩, ⟨"Other", false, true⟩, ⟨"X18", false, true⟩] "X18"
          = .ok ((a : Int), (b : Int)) ∧ a ≠ b) ∧
      discover [⟨"X18", true, false⟩] "X18" = .error "xair: no device is connected" := by
  have hone : OneDirection
      [⟨"X18", true, false⟩, ⟨"Other", false, true⟩, ⟨"X18", false, true⟩] := by
    unfold OneDirection
    decide
  refine ⟨hone, rfl, ?_, ?_⟩
  · obtain ⟨a, b, hab, _, _, _, _, hne⟩ :=
      (discover_handles
        [⟨"X18", true, false⟩, ⟨"Other", false, true⟩, ⟨"X18", false, true⟩] "X18").2
        ⟨0, ⟨"X18", true, false⟩, rfl, by decide, rfl⟩
        ⟨2, ⟨"X18", false, true⟩, rfl, by decide, rfl⟩
    exact ⟨a, b, hab, hne hone⟩
  · refine (discover_handles [⟨"X18", true, false⟩] "X18").1.mpr (Or.inr ?_)
    rintro ⟨i, d, hd, _, ho⟩
    cases i with
    | zero =>
      simp only [List.getElem?_cons_zero, Option.some.injEq] at hd
      subst hd
      exact absurd ho (by decide)
    | succ j => simp at hd

/-! ## Shape of the payloads -/

theorem bytes_append (a b : String) : bytes (a ++ b) = bytes a ++ bytes b := by
  simp [bytes, String.data_append, List.flatMap_append]

theorem Safe_append {n m : Nat} {a b : List UInt8} (ha : Safe n a) (hb : Safe m b) :
    Safe (n + m) (a ++ b) := by
  refine ⟨?_, ?_⟩
  · intro c hc
    rcases List.mem_append.mp hc with h | h
    · exact ha.1 c h
    · exact hb.1 c h
  · rw [List.count_append, ha.2, hb.2]

theorem Safe_of_check (l : List UInt8) (h : sevenBitNoSpace l = true) : Safe 0 l := by
  simp only [sevenBitNoSpace, List.all_eq_true, Bool.and_eq_true, decide_eq_true_eq] at h
  refine ⟨fun b hb => (h b hb).1, ?_⟩
  rw [List.count_eq_zero]
  intro hmem
  have := (h _ hmem).2
  simp at this

theorem TwoDigits_of_check (l : List UInt8) (h : isTwoDigits l = true) : TwoDigits l := by
  simp only [isTwoDigits, List.all_eq_true, Bool.and_eq_true, decide_eq_true_eq,
    beq_iff_eq] at h
  exact ⟨h.1, fun b hb => h.2 b hb⟩

/-- The two-digit rendering of `0 ≤ n ≤ 99`: two digit bytes, 7-bit, no space. -/
theorem twoDigit_bytes (n : Int) (h0 : 0 ≤ n) (h99 : n ≤ 99) :
    TwoDigits (bytes (twoDigit n)) ∧ Safe 0 (bytes (twoDigit n)) := by
  have key : ∀ k, k < 100 → isTwoDigits (bytes (twoDigit (k : Nat))) = true ∧
      sevenBitNoSpace (bytes (twoDigit (k : Nat))) = true := by decide
  lift n to ℕ using h0
  obtain ⟨h1, h2⟩ := key n (by omega)
  exact ⟨TwoDigits_of_check _ h1, Safe_of_check _ h2⟩

/-- The decibel strings are 7-bit and hold no space. -/
theorem dbString_bytes (level : Int) (db : String) (h : dbString level = some db) :
    Safe 0 (bytes db) := by
  have key : ∀ v ∈ levels.map Prod.snd, sevenBitNoSpace (bytes v) = true := by decide
  apply Safe_of_check
  apply key
  rw [← mapGet_levels] at h
  have := (mapGet_eq_some_iff levels levels_keys_nodup level db).mp h
  exact List.mem_map.mpr ⟨(level, db), this, rfl⟩

theorem markers_at_ends (p : List UInt8) (h : ∀ b ∈ p, b < 0x80) :
    MarkersAtEnds (appendOscPrefixAndSuffic p) := by
  intro i
  have hf : appendOscPrefixAndSuffic p = 0xF0 :: 0x00 :: 0x20 :: 0x32 :: 0x32 :: (p ++ [0xF7]) :=
    by simp [appendOscPrefixAndSuffic, SysexPrefix, SysexSufix]
  rw [hf]
  rcases i with _ | _ | _ | _ | _ | j
  · simp
  · simp
  · simp
  · simp
  · simp
  · simp only [List.getElem?_cons_succ, List.length_cons, List.length_append,
      List.length_singleton]
    by_cases hj : j < p.length
    · rw [List.getElem?_append_left hj]
      have hlt : p[j] < 0x80 := h _ (List.getElem_mem hj)
      rw [List.getElem?_eq_getElem hj]
      constructor
      · intro he
        simp only [Option.some.injEq] at he
        rw [he] at hlt
        exact absurd hlt (by decide)
      · intro he
        simp only [Option.some.injEq] at he
        rw [he] at hlt
        exact absurd hlt (by decide)
    · rw [List.getElem?_append_right (by omega)]
      rcases Nat.eq_zero_or_pos (j - p.length) with h0 | hpos
      · rw [h0]
        simp
        omega
      · obtain ⟨k, hk⟩ : ∃ k, j - p.length = k + 1 := ⟨j - p.length - 1, by omega⟩
        rw [hk]
        simp

theorem ChannelLevel_queues (x : XAir) (q : Chan (List UInt8)) (channel bus level : Int)
    (order : List (Int × String)) (db : String) (hq : x.sysExRoom q)
    (hperm : order.Perm levels) (hc1 : 1 ≤ channel) (hc32 : channel ≤ 32) (hb0 : 0 ≤ bus)
    (hb16 : bus ≤ 16) (hdb : dbString level = some db) :
    ChannelLevel x channel bus level order = .done (x.pushSysEx q
      (if bus = 0 then
        bytes "/ch/" ++ bytes (twoDigit channel) ++ bytes "/mix/fader " ++ bytes db
      else
        bytes "/ch/" ++ bytes (twoDigit channel) ++ bytes "/mix/" ++ bytes (twoDigit bus)
          ++ bytes "/level " ++ bytes db)) := by
  unfold ChannelLevel
  rw [if_neg (by omega), if_neg (by omega), ChannelLevel_loop_eq, mapGet_perm order hperm, hdb]
  simp only [BUS_MAIN]
  rw [fmtD02_eq_twoDigit channel (by omega) (by omega),
    fmtD02_eq_twoDigit bus hb0 (by omega)]
  by_cases hb : bus = 0
  · rw [if_pos hb, if_pos hb]
    simp only [bytes_append]
    exact queueSysExMessage_room x q _ hq
  · rw [if_neg hb, if_neg hb]
    simp only [bytes_append]
    exact queueSysExMessage_room x q _ hq

theorem BusLevel_queues (x : XAir) (q : Chan (List UInt8)) (bus level : Int)
    (order : List (Int × String)) (db : String) (hq : x.sysExRoom q)
    (hperm : order.Perm levels) (hb1 : 1 ≤ bus) (hb16 : bus ≤ 16)
    (hdb : dbString level = some db) :
    BusLevel x bus level order = .done (x.pushSysEx q
      (bytes "/bus/" ++ bytes (twoDigit bus) ++ bytes "/mix/fader " ++ bytes db)) := by
  unfold BusLevel
  rw [if_neg (by omega), BusLevel_loop_eq, mapGet_perm order hperm, hdb]
  simp only
  rw [fmtD02_eq_twoDigit bus (by omega) (by omega)]
  simp only [bytes_append]
  exact queueSysExMessage_room x q _ hq

theorem MainLevel_queues (x : XAir) (q : Chan (List UInt8)) (level : Int)
    (order : List (Int × String)) (db : String) (hq : x.sysExRoom q)
    (hperm : order.Perm levels) (hdb : dbString level = some db) :
    MainLevel x level order
      = .done (x.pushSysEx q (bytes "/main/st/mix/fader " ++ bytes db)) := by
  unfold MainLevel
  rw [MainLevel_loop_eq, mapGet_perm order hperm, hdb]
  simp only [bytes_append]
  exact queueSysExMessage_room x q _ hq

theorem safePayload_of (p : List UInt8) (hs : Safe 1 p) (hh : p.head? = some 0x2F) :
    SafePayload p :=
  ⟨hs.1, hh, hs.2⟩

theorem safe_ch : Safe 0 (bytes "/ch/") := by unfold Safe; decide

theorem safe_mix : Safe 0 (bytes "/mix/") := by unfold Safe; decide

theorem safe_bus : Safe 0 (bytes "/bus/") := by unfold Safe; decide

theorem safe_mixFader : Safe 1 (bytes "/mix/fader ") := by unfold Safe; decide

theorem safe_level : Safe 1 (bytes "/level ") := by unfold Safe; decide

theorem safe_mainFader : Safe 1 (bytes "/main/st/mix/fader ") := by unfold Safe; decide

theorem head_ch (l : List UInt8) : (bytes "/ch/" ++ l).head? = some 0x2F := by
  have h : bytes "/ch/" = [0x2F, 0x63, 0x68, 0x2F] := by decide
  rw [h]; rfl

theorem head_bus (l : List UInt8) : (bytes "/bus/" ++ l).head? = some 0x2F := by
  have h : bytes "/bus/" = [0x2F, 0x62, 0x75, 0x73, 0x2F] := by decide
  rw [h]; rfl

theorem head_main (l : List UInt8) : (bytes "/main/st/mix/fader " ++ l).head? = some 0x2F := by
  have h : bytes "/main/st/mix/fader "
      = 0x2F :: (bytes "/main/st/mix/fader ").tail := by decide
  rw [h]; rfl

/-- C19: for a channel in `[1,32]`, a bus in `[0,16]` (`busB` in `[1,16]` for
`BusLevel`) and a level in `[1,7]`, with room in the SysEx queue, the payload that
`ChannelLevel`, `BusLevel` and `MainLevel` queue has only 7-bit bytes, starts with
`/`, holds exactly one space, and renders the channel and the bus as exactly two
decimal digits; so in the frame `appendOscPrefixAndSuffic payload` the byte `0xF0`
occurs only at index 0 and `0xF7` only at the last index. -/
theorem payloads_safe (x : XAir) (q : Chan (List UInt8)) (channel bus busB level : Int)
    (order : List (Int × String)) (hq : x.sysExRoom q) (hperm : order.Perm levels)
    (hc1 : 1 ≤ channel) (hc32 : channel ≤ 32) (hb0 : 0 ≤ bus) (hb16 : bus ≤ 16)
    (hB1 : 1 ≤ busB) (hB16 : busB ≤ 16) (hl1 : 1 ≤ level) (hl7 : level ≤ 7) :
    ∃ db, dbString level = some db ∧
      (∃ p, ChannelLevel x channel bus level order = .done (x.pushSysEx q p) ∧
        SafePayload p ∧ MarkersAtEnds (appendOscPrefixAndSuffic p) ∧
        TwoDigits (bytes (twoDigit channel)) ∧ TwoDigits (bytes (twoDigit bus)) ∧
        p = if bus = 0 then
              bytes "/ch/" ++ bytes (twoDigit channel) ++ bytes "/mix/fader " ++ bytes db
            else
              bytes "/ch/" ++ bytes (twoDigit channel) ++ bytes "/mix/"
                ++ bytes (twoDigit bus) ++ bytes "/level " ++ bytes db) ∧
      (∃ p, BusLevel x busB level order = .done (x.pushSysEx q p) ∧
        SafePayload p ∧ MarkersAtEnds (appendOscPrefixAndSuffic p) ∧
        TwoDigits (bytes (twoDigit busB)) ∧
        p = bytes "/bus/" ++ bytes (twoDigit busB) ++ bytes "/mix/fader " ++ bytes db) ∧
      (∃ p, MainLevel x level order = .done (x.pushSysEx q p) ∧
        SafePayload p ∧ MarkersAtEnds (appendOscPrefixAndSuffic p) ∧
        p = bytes "/main/st/mix/fader " ++ bytes db) := by
  obtain ⟨db, hdb⟩ := dbString_of_mem level hl1 hl7
  have sdb := dbString_bytes level db hdb
  obtain ⟨dc, sc⟩ := twoDigit_bytes channel (by omega) (by omega)
  obtain ⟨dbu, sbu⟩ := twoDigit_bytes bus hb0 (by omega)
  obtain ⟨dB, sB⟩ := twoDigit_bytes busB (by omega) (by omega)
  refine ⟨db, hdb, ?_, ?_, ?_⟩
  · have hsafe : SafePayload (if bus = 0 then
          bytes "/ch/" ++ bytes (twoDigit channel) ++ bytes "/mix/fader " ++ bytes db
        else
          bytes "/ch/" ++ bytes (twoDigit channel) ++ bytes "/mix/"
            ++ bytes (twoDigit bus) ++ bytes "/level " ++ bytes db) := by
      by_cases hb : bus = 0
      · rw [if_pos hb]
        refine safePayload_of _
          (Safe_append (Safe_append (Safe_append safe_ch sc) safe_mixFader) sdb) ?_
        simp only [List.append_assoc]
        exact head_ch _
      · rw [if_neg hb]
        refine safePayload_of _
          (Safe_append (Safe_append (Safe_append (Safe_append (Safe_append safe_ch sc)
            safe_mix) sbu) safe_level) sdb) ?_
        simp only [List.append_assoc]
        exact head_ch _
    exact ⟨_, ChannelLevel_queues x q channel bus level order db hq hperm hc1 hc32 hb0 hb16 hdb,
      hsafe, markers_at_ends _ hsafe.1, dc, dbu, rfl⟩
  · have hsafe : SafePayload
        (bytes "/bus/" ++ bytes (twoDigit busB) ++ bytes "/mix/fader " ++ bytes db) := by
      refine safePayload_of _
        (Safe_append (Safe_append (Safe_append safe_bus sB) safe_mixFader) sdb) ?_
      simp only [List.append_assoc]
      exact head_bus _
    exact ⟨_, BusLevel_queues x q busB level order db hq hperm hB1 hB16 hdb,
      hsafe, markers_at_ends _ hsafe.1, dB, rfl⟩
  · have hsafe : SafePayload (bytes "/main/st/mix/fader " ++ bytes db) :=
      safePayload_of _ (Safe_append safe_mainFader sdb) (head_main _)
    exact ⟨_, MainLevel_queues x q level order db hq hperm hdb,
      hsafe, markers_at_ends _ hsafe.1, rfl⟩

/-- Instance of C19: the payload `/ch/05/mix/03/level -35` of `ChannelLevel(5,3,1)`
is safe and its frame has `0xF0` and `0xF7` at the two ends only. -/
theorem payloads_safe_witness :
    SafePayload (bytes "/ch/05/mix/03/level -35") ∧
      MarkersAtEnds (appendOscPrefixAndSuffic (bytes "/ch/05/mix/03/level -35")) := by
  obtain ⟨db, hdb, ⟨p, _, hsafe, hmark, _, _, hp⟩, _⟩ :=
    payloads_safe sampleBridge ⟨1024, []⟩ 5 3 16 1 levels ⟨rfl, by decide⟩ (List.Perm.refl _)
      (by decide) (by decide) (by decide) (by decide) (by decide) (by decide) (by decide)
      (by decide)
  have h1 : dbString 1 = some "-35" := by decide
  rw [h1] at hdb
  cases hdb
  have e : p = bytes "/ch/05/mix/03/level -35" := by
    rw [hp]
    decide
  rw [e] at hsafe hmark
  exact ⟨hsafe, hmark⟩

/-! ## The writer loop -/

theorem shorts_append (a b : List Wire) : shorts (a ++ b) = shorts a ++ shorts b := by
  induction a with
  | nil => rfl
  | cons w ws ih => cases w <;> simp [shorts, ih]

theorem sysExs_append (a b : List Wire) : sysExs (a ++ b) = sysExs a ++ sysExs b := by
  induction a with
  | nil => rfl
  | cons w ws ih => cases w <;> simp [sysExs, ih]

theorem tryRecv_some {α : Type} (q q' : Option (Chan α)) (m : α)
    (h : tryRecv q = some (m, q')) :
    contents q = m :: contents q' ∧ qlen q = qlen q' + 1 := by
  cases q with
  | none => simp [tryRecv] at h
  | some c =>
    obtain ⟨cap, buf⟩ := c
    cases buf with
    | nil => simp [tryRecv] at h
    | cons a rest =>
      simp only [tryRecv, Option.some.injEq, Prod.mk.injEq] at h
      obtain ⟨rfl, rfl⟩ := h
      simp [contents, qlen]

theorem tryRecv_none {α : Type} (q : Option (Chan α)) (h : tryRecv q = none) :
    contents q = [] ∧ qlen q = 0 := by
  cases q with
  | none => simp [contents, qlen]
  | some c =>
    obtain ⟨cap, buf⟩ := c
    cases buf with
    | nil => simp [contents, qlen]
    | cons a rest => simp [tryRecv] at h

/-- The MIDI messages written followed by those still queued. -/
theorem midiCase_wrote (x y : XAir) (out : MidiShort) (q : Option (Chan MidiShort))
    (err : Bool) (hr : tryRecv x.midiQueue = some (out, q))
    (h : runOutbound.midiCase x out q err = .wrote y) :
    shorts y.outputStream.written ++ contents y.midiQueue
        = shorts x.outputStream.written ++ contents x.midiQueue ∧
      sysExs y.outputStream.written = sysExs x.outputStream.written ∧
      y.sysExQueue = x.sysExQueue ∧
      qlen y.midiQueue + 1 = qlen x.midiQueue := by
  obtain ⟨hc, hl⟩ := tryRecv_some _ _ _ hr
  unfold runOutbound.midiCase at h
  cases err with
  | true => simp at h
  | false =>
    simp only [Bool.false_eq_true, if_false, Turn.wrote.injEq] at h
    subst h
    simp [shorts_append, sysExs_append, shorts, sysExs, hc, hl]

theorem sysExCase_wrote (x y : XAir) (out : List UInt8) (q : Option (Chan (List UInt8)))
    (err : Bool) (hr : tryRecv x.sysExQueue = some (out, q))
    (h : runOutbound.sysExCase x out q err = .wrote y) :
    sysExs y.outputStream.written ++ (contents y.sysExQueue).map appendOscPrefixAndSuffic
        = sysExs x.outputStream.written
          ++ (contents x.sysExQueue).map appendOscPrefixAndSuffic ∧
      shorts y.outputStream.written = shorts x.outputStream.written ∧
      y.midiQueue = x.midiQueue ∧
      qlen y.sysExQueue + 1 = qlen x.sysExQueue := by
  obtain ⟨hc, hl⟩ := tryRecv_some _ _ _ hr
  unfold runOutbound.sysExCase at h
  cases err with
  | true => simp at h
  | false =>
    simp only [Bool.false_eq_true, if_false, Turn.wrote.injEq] at h
    subst h
    simp [shorts_append, sysExs_append, shorts, sysExs, hc, hl]

/-- The two per-queue sequences "written, then still queued" of a bridge. -/
theorem turn_wrote (x y : XAir) (pick err : Bool) (h : runOutbound.turn x pick err = .wrote y) :
    shorts y.outputStream.written ++ contents y.midiQueue
        = shorts x.outputStream.written ++ contents x.midiQueue ∧
      sysExs y.outputStream.written ++ (contents y.sysExQueue).map appendOscPrefixAndSuffic
        = sysExs x.outputStream.written
          ++ (contents x.sysExQueue).map appendOscPrefixAndSuffic ∧
      qlen y.midiQueue + qlen y.sysExQueue + 1 = qlen x.midiQueue + qlen x.sysExQueue := by
  unfold runOutbound.turn at h
  split at h
  · cases h
  · rename_i out q hm hs
    obtain ⟨h1, h2, h3, h4⟩ := midiCase_wrote x y out q err hm h
    rw [h1, h2, h3]
    exact ⟨rfl, rfl, by omega⟩
  · rename_i out q hm hs
    obtain ⟨h1, h2, h3, h4⟩ := sysExCase_wrote x y out q err hs h
    rw [h1, h2, h3]
    exact ⟨rfl, rfl, by omega⟩
  · rename_i out q out' q' hm hs
    cases pick with
    | true =>
      simp only [if_true] at h
      obtain ⟨h1, h2, h3, h4⟩ := midiCase_wrote x y out q err hm h
      rw [h1, h2, h3]
      exact ⟨rfl, rfl, by omega⟩
    | false =>
      simp only [Bool.false_eq_true, if_false] at h
      obtain ⟨h1, h2, h3, h4⟩ := sysExCase_wrote x y out' q' err hs h
      rw [h1, h2, h3]
      exact ⟨rfl, rfl, by omega⟩

theorem turn_waits (x : XAir) (pick err : Bool) (h : runOutbound.turn x pick err = .waits) :
    qlen x.midiQueue + qlen x.sysExQueue = 0 := by
  unfold runOutbound.turn at h
  split at h
  · rename_i hm hs
    rw [(tryRecv_none _ hm).2, (tryRecv_none _ hs).2]
  · unfold runOutbound.midiCase at h
    split at h <;> cases h
  · unfold runOutbound.sysExCase at h
    simp only at h
    split at h <;> cases h
  · split at h
    · unfold runOutbound.midiCase at h
      split at h <;> cases h
    · unfold runOutbound.sysExCase at h
      simp only at h
      split at h <;> cases h

theorem turn_not_fatal (x y : XAir) (pick : Bool) :
    runOutbound.turn x pick false ≠ .fatal y := by
  unfold runOutbound.turn
  split
  · intro h; cases h
  · simp [runOutbound.midiCase]
  · simp [runOutbound.sysExCase]
  · split
    · simp [runOutbound.midiCase]
    · simp [runOutbound.sysExCase]

theorem contents_of_qlen {α : Type} (q : Option (Chan α)) (h : qlen q = 0) :
    contents q = [] := by
  cases q with
  | none => rfl
  | some c => exact List.length_eq_zero.mp h

/-- After events that did not end the process: per queue, what has been written
followed by what is still queued is what was there followed by what the caller
queued, in that order. -/
theorem run_order (x y : XAir) (es : List Event) (h : run x es = some y) :
    shorts y.outputStream.written ++ contents y.midiQueue
        = shorts x.outputStream.written ++ contents x.midiQueue ++ queuedMidi es ∧
      sysExs y.outputStream.written ++ (contents y.sysExQueue).map appendOscPrefixAndSuffic
        = sysExs x.outputStream.written
          ++ (contents x.sysExQueue).map appendOscPrefixAndSuffic
          ++ (queuedSysEx es).map appendOscPrefixAndSuffic := by
  induction es generalizing x with
  | nil =>
    simp only [run, Option.some.injEq] at h
    subst h
    simp [queuedMidi, queuedSysEx]
  | cons e es ih =>
    cases e with
    | queueMidi m =>
      simp only [run] at h
      rcases queueMidiMessage_cases x m with ⟨q, hq, hd⟩ | ⟨_, hf⟩
      · rw [hd] at h
        obtain ⟨h1, h2⟩ := ih _ h
        rw [h1, h2]
        simp [XAir.pushMidi, contents, queuedMidi, queuedSysEx, hq.1]
      · rw [hf] at h
        cases h
    | queueSysEx p =>
      simp only [run] at h
      rcases queueSysExMessage_cases x p with ⟨q, hq, hd⟩ | ⟨_, hf⟩
      · rw [hd] at h
        obtain ⟨h1, h2⟩ := ih _ h
        rw [h1, h2]
        simp [XAir.pushSysEx, contents, queuedMidi, queuedSysEx, hq.1]
      · rw [hf] at h
        cases h
    | writer pick err =>
      simp only [run] at h
      cases ht : runOutbound.turn x pick err with
      | waits =>
        rw [ht] at h
        obtain ⟨h1, h2⟩ := ih _ h
        rw [h1, h2]
        simp [queuedMidi, queuedSysEx]
      | wrote y' =>
        rw [ht] at h
        obtain ⟨h1, h2⟩ := ih _ h
        obtain ⟨t1, t2, _⟩ := turn_wrote x y' pick err ht
        rw [h1, h2, t1, t2]
        simp [queuedMidi, queuedSysEx]
      | fatal y' =>
        rw [ht] at h
        cases h

/-- With one turn per queued message and no write error, the writer loop empties
both queues. -/
theorem run_drains (picks : List Bool) (x : XAir)
    (h : qlen x.midiQueue + qlen x.sysExQueue ≤ picks.length) :
    ∃ z, run x (picks.map fun b => Event.writer b false) = some z ∧
      contents z.midiQueue = [] ∧ contents z.sysExQueue = [] := by
  induction picks generalizing x with
  | nil =>
    simp only [List.length_nil, Nat.le_zero_eq] at h
    exact ⟨x, rfl, contents_of_qlen _ (by omega), contents_of_qlen _ (by omega)⟩
  | cons b bs ih =>
    simp only [List.map_cons, run]
    cases ht : runOutbound.turn x b false with
    | waits =>
      have := turn_waits x b false ht
      exact ih x (by omega)
    | wrote y =>
      obtain ⟨_, _, hl⟩ := turn_wrote x y b false ht
      simp only [List.length_cons] at h
      exact ih y (by omega)
    | fatal y => exact absurd ht (turn_not_fatal x y b)

theorem queuedMidi_writers (picks : List Bool) :
    queuedMidi (picks.map fun b => Event.writer b false) = [] ∧
      queuedSysEx (picks.map fun b => Event.writer b false) = [] := by
  induction picks with
  | nil => exact ⟨rfl, rfl⟩
  | cons b bs ih => simpa [queuedMidi, queuedSysEx] using ih

/-- C12: per-queue FIFO delivery.  Let the caller's enqueues and the turns of the
writer loop happen in any order `es` without ending the process.  Then, for each
queue, the messages written so far followed by the messages still queued are the
ones that were there followed by the ones the caller queued, in the order of
queueing; and once the writer loop gets a turn per queued message without a write
error (whatever it picks when both queues are ready), both queues are empty and
the stream has received every MIDI message in that order and, for every SysEx
payload `p` in that order, the bytes `appendOscPrefixAndSuffic p`. -/
theorem fifo_delivery (x y : XAir) (es : List Event) (picks : List Bool)
    (h : run x es = some y) (hp : qlen y.midiQueue + qlen y.sysExQueue ≤ picks.length) :
    (shorts y.outputStream.written ++ contents y.midiQueue
        = shorts x.outputStream.written ++ contents x.midiQueue ++ queuedMidi es ∧
      sysExs y.outputStream.written ++ (contents y.sysExQueue).map appendOscPrefixAndSuffic
        = sysExs x.outputStream.written
          ++ (contents x.sysExQueue ++ queuedSysEx es).map appendOscPrefixAndSuffic) ∧
    ∃ z, run y (picks.map fun b => Event.writer b false) = some z ∧
      contents z.midiQueue = [] ∧ contents z.sysExQueue = [] ∧
      shorts z.outputStream.written
        = shorts x.outputStream.written ++ contents x.midiQueue ++ queuedMidi es ∧
      sysExs z.outputStream.written
        = sysExs x.outputStream.written
          ++ (contents x.sysExQueue ++ queuedSysEx es).map appendOscPrefixAndSuffic := by
  obtain ⟨h1, h2⟩ := run_order x y es h
  have h2' : sysExs y.outputStream.written
        ++ (contents y.sysExQueue).map appendOscPrefixAndSuffic
      = sysExs x.outputStream.written
        ++ (contents x.sysExQueue ++ queuedSysEx es).map appendOscPrefixAndSuffic := by
    rw [h2, List.map_append, List.append_assoc]
  refine ⟨⟨h1, h2'⟩, ?_⟩
  obtain ⟨z, hz, hzm, hzs⟩ := run_drains picks y hp
  obtain ⟨k1, k2⟩ := run_order y z _ hz
  rw [hzm, (queuedMidi_writers picks).1, h1] at k1
  rw [hzs, (queuedMidi_writers picks).2, h2'] at k2
  refine ⟨z, hz, hzm, hzs, ?_, ?_⟩
  · simpa using k1
  · simpa using k2

/-- Instance of C12: the caller queues MIDI `a`, SysEx `/x`, the writer takes the
SysEx payload, the caller queues MIDI `b`; after two more turns the stream has
the frame `F0 00 20 32 32 2F 78 F7` and the MIDI messages `a`, `b` in that order. -/
theorem fifo_delivery_witness :
    ∃ z, run
        { sampleBridge with
          outputStream := ⟨1, [.sysEx [0xF0, 0x00, 0x20, 0x32, 0x32, 0x2F, 0x78, 0xF7]]⟩,
          midiQueue := some ⟨1024, [⟨0xB0, 1, 2⟩, ⟨0xB3, 4, 5⟩]⟩ }
        ([true, true].map fun b => Event.writer b false) = some z ∧
      contents z.midiQueue = [] ∧ contents z.sysExQueue = [] ∧
      shorts z.outputStream.written = [⟨0xB0, 1, 2⟩, ⟨0xB3, 4, 5⟩] ∧
      sysExs z.outputStream.written = [[0xF0, 0x00, 0x20, 0x32, 0x32, 0x2F, 0x78, 0xF7]] :=
  (fifo_delivery sampleBridge
    { sampleBridge with
      outputStream := ⟨1, [.sysEx [0xF0, 0x00, 0x20, 0x32, 0x32, 0x2F, 0x78, 0xF7]]⟩,
      midiQueue := some ⟨1024, [⟨0xB0, 1, 2⟩, ⟨0xB3, 4, 5⟩]⟩ }
    [.queueMidi ⟨0xB0, 1, 2⟩, .queueSysEx [0x2F, 0x78], .writer false false,
      .queueMidi ⟨0xB3, 4, 5⟩]
    [true, true] (by decide) (by decide)).2

end Xair
